/-
Verification of the projectNest (lucid-lists-backend) core against its
specification.  The Go services, repositories and middleware are shallowly
embedded as executable Lean definitions; SQL statements are modelled as
functions over in-memory tables (lists of rows).  Machine integers are
modelled as Int/Nat (no overflow is relevant at the sizes involved),
timestamps as Nat, UUIDs and internal ids as Nat.
-/
import Mathlib

deriving instance DecidableEq for Except

/-! # Shared SQL helpers -/

/-- `SELECT COALESCE(MAX(xs), d)`: the SQL aggregate MAX over a (possibly
empty) multiset of values, with COALESCE default `d` for the empty case. -/
def sqlMaxD (ps : List Int) (d : Int) : Int :=
  match ps with
  | [] => d
  | p :: rest => rest.foldl max p

theorem foldl_max_bounds (ps : List Int) : ∀ q : Int,
    q ≤ ps.foldl max q ∧ ∀ p ∈ ps, p ≤ ps.foldl max q := by
  induction ps with
  | nil => intro q; exact ⟨le_refl _, by simp⟩
  | cons r rs ih =>
    intro q
    refine ⟨le_trans (le_max_left q r) (ih (max q r)).1, ?_⟩
    intro p hp
    rcases List.mem_cons.mp hp with h | h
    · subst h; exact le_trans (le_max_right q p) (ih (max q p)).1
    · exact (ih (max q r)).2 p h

theorem le_sqlMaxD (ps : List Int) (d : Int) : ∀ p ∈ ps, p ≤ sqlMaxD ps d := by
  intro p hp
  match ps with
  | [] => cases hp
  | q :: rest =>
    show p ≤ rest.foldl max q
    rcases List.mem_cons.mp hp with h | h
    · subst h; exact (foldl_max_bounds rest p).1
    · exact (foldl_max_bounds rest q).2 p h

/-! # Position Manager: lists and notes (claims C1, C10)

Embedding of `listRepository.GetMaxPositionByProject`,
`noteRepository.GetMaxPositionByProject`, the position-assignment step of
`ListService.CreateList` (internal/services: CreateList) and of
`NoteService.CreateNote` (internal/services/note.go). -/

/-- Row of the `list` table (models.List); `position` is NOT NULL. -/
structure ListRow where
  id : Nat
  listUid : Nat
  projectId : Nat
  name : String
  color : String
  position : Int
  updatedAt : Option Nat
  isActive : Bool
deriving Repr, DecidableEq

/-- Row of the `note` table (models.Note); `position` is nullable. -/
structure NoteRow where
  id : Nat
  noteUid : Nat
  projectId : Nat
  folderId : Option Nat
  title : String
  contentJson : String
  position : Option Int
  updatedAt : Option Nat
  isActive : Bool
deriving Repr, DecidableEq

namespace ListRepo

/-- Active sibling list positions of a project:
`FROM list WHERE project_id = $1 AND is_active = true`. -/
def activePositions (lists : List ListRow) (projectId : Nat) : List Int :=
  (lists.filter (fun l => l.projectId == projectId && l.isActive)).map (·.position)

/-- `listRepository.GetMaxPositionByProject`:
`SELECT COALESCE(MAX(position), 0) FROM list
 WHERE project_id = $1 AND is_active = true`. -/
def GetMaxPositionByProject (lists : List ListRow) (projectId : Nat) : Int :=
  sqlMaxD (activePositions lists projectId) 0

end ListRepo

namespace NoteRepo

/-- Active sibling note positions of a project (SQL MAX ignores NULLs):
`FROM note WHERE project_id = $1 AND is_active = true`. -/
def activePositions (notes : List NoteRow) (projectId : Nat) : List Int :=
  (notes.filter (fun n => n.projectId == projectId && n.isActive)).filterMap (·.position)

/-- `noteRepository.GetMaxPositionByProject`:
`SELECT COALESCE(MAX(position), -1) + 1 FROM note
 WHERE project_id = $1 AND is_active = true` (the `+ 1` is inside the SQL). -/
def GetMaxPositionByProject (notes : List NoteRow) (projectId : Nat) : Int :=
  sqlMaxD (activePositions notes projectId) (-1) + 1

end NoteRepo

namespace ListService

/-- Position assignment in `ListService.CreateList`: the request's
`position` field is a plain (non-pointer) int, and the service recomputes
the position exactly when `req.Position == 0`:
`if req.Position == 0 { maxPosition, _ := listRepo.GetMaxPositionByProject(...);
 req.Position = maxPosition + 1 }`. -/
def CreateListPosition (reqPosition : Int) (lists : List ListRow)
    (projectId : Nat) : Int :=
  if reqPosition = 0 then ListRepo.GetMaxPositionByProject lists projectId + 1
  else reqPosition

end ListService

namespace NoteService

/-- Position assignment in `NoteService.CreateNote`: the request's
`position` is a pointer (`*int`, embedded as `Option Int`); when absent the
service stores the value returned by `noteRepo.GetMaxPositionByProject`
verbatim (no further `+ 1`, it is already inside the SQL). -/
def CreateNotePosition (reqPosition : Option Int) (notes : List NoteRow)
    (projectId : Nat) : Int :=
  match reqPosition with
  | some p => p
  | none => NoteRepo.GetMaxPositionByProject notes projectId

end NoteService

/-! ## Claims C1 and C10 -/

/-- C1: Creating a List without an explicit position (request position 0,
the field is a plain int) assigns the maximum position among active sibling
lists plus 1, with base 1 when no active siblings exist (COALESCE(MAX,0)+1);
creating a Note without an explicit position (absent pointer) assigns the
maximum position among active sibling notes plus 1, with base 0 when no
active siblings exist (COALESCE(MAX,-1)+1).  The two conventions are
distinct: the list base is 1, the note base is 0, and in both cases the new
position is strictly greater than every active sibling position. -/
theorem list_and_note_position_conventions
    (lists : List ListRow) (notes : List NoteRow) (pid : Nat) :
    (ListService.CreateListPosition 0 lists pid
        = sqlMaxD (ListRepo.activePositions lists pid) 0 + 1)
    ∧ (ListRepo.activePositions lists pid = [] →
        ListService.CreateListPosition 0 lists pid = 1)
    ∧ (∀ p ∈ ListRepo.activePositions lists pid,
        p < ListService.CreateListPosition 0 lists pid)
    ∧ (NoteService.CreateNotePosition none notes pid
        = sqlMaxD (NoteRepo.activePositions notes pid) (-1) + 1)
    ∧ (NoteRepo.activePositions notes pid = [] →
        NoteService.CreateNotePosition none notes pid = 0)
    ∧ (∀ p ∈ NoteRepo.activePositions notes pid,
        p < NoteService.CreateNotePosition none notes pid) := by
  refine ⟨?_, ?_, ?_, ?_, ?_, ?_⟩
  · simp [ListService.CreateListPosition, ListRepo.GetMaxPositionByProject]
  · intro h
    simp [ListService.CreateListPosition, ListRepo.GetMaxPositionByProject, h,
      sqlMaxD]
  · intro p hp
    have hle := le_sqlMaxD (ListRepo.activePositions lists pid) 0 p hp
    have ha : ListService.CreateListPosition 0 lists pid
        = sqlMaxD (ListRepo.activePositions lists pid) 0 + 1 := by
      simp [ListService.CreateListPosition, ListRepo.GetMaxPositionByProject]
    rw [ha]; omega
  · simp [NoteService.CreateNotePosition, NoteRepo.GetMaxPositionByProject]
  · intro h
    simp [NoteService.CreateNotePosition, NoteRepo.GetMaxPositionByProject, h,
      sqlMaxD]
  · intro p hp
    have := le_sqlMaxD (NoteRepo.activePositions notes pid) (-1) p hp
    simp only [NoteService.CreateNotePosition, NoteRepo.GetMaxPositionByProject]
    omega

/-- Witness for C1: with no siblings at all, a new list gets position 1 and
a new note gets position 0. -/
theorem list_and_note_position_conventions_witness :
    ListService.CreateListPosition 0 ([] : List ListRow) 1 = 1
    ∧ NoteService.CreateNotePosition none ([] : List NoteRow) 1 = 0 :=
  ⟨(list_and_note_position_conventions [] [] 1).2.1 rfl,
   (list_and_note_position_conventions [] [] 1).2.2.2.2.1 rfl⟩

/-- C10: a ListRequest carrying explicit position 0 is indistinguishable
from one that omitted the field (the field is a plain int with no absent
state), so the stored position is the recomputed max+1, never the
requested 0 when active siblings (with the API-validated `min=0` positions)
exist; any nonzero requested position is stored verbatim. -/
theorem createList_position_zero_indistinguishable
    (lists : List ListRow) (pid : Nat) :
    (ListService.CreateListPosition 0 lists pid
        = ListRepo.GetMaxPositionByProject lists pid + 1)
    ∧ (∀ q : Int, q ≠ 0 → ListService.CreateListPosition q lists pid = q)
    ∧ (ListRepo.activePositions lists pid ≠ [] →
       (∀ p ∈ ListRepo.activePositions lists pid, 0 ≤ p) →
       ListService.CreateListPosition 0 lists pid ≠ 0) := by
  refine ⟨by simp [ListService.CreateListPosition], ?_, ?_⟩
  · intro q hq
    simp [ListService.CreateListPosition, hq]
  · intro hne hnn
    rcases h : ListRepo.activePositions lists pid with _ | ⟨q, rest⟩
    · exact absurd h hne
    have hq : (0:Int) ≤ q := hnn q (by rw [h]; exact List.mem_cons_self q rest)
    have hmax : q ≤ sqlMaxD (ListRepo.activePositions lists pid) 0 :=
      le_sqlMaxD _ 0 q (by rw [h]; exact List.mem_cons_self q rest)
    have ha : ListService.CreateListPosition 0 lists pid
        = sqlMaxD (ListRepo.activePositions lists pid) 0 + 1 := by
      simp [ListService.CreateListPosition, ListRepo.GetMaxPositionByProject]
    rw [ha]; omega

/-- Witness for C10: one active sibling at position 3 forces the stored
position of a position-0 request to 4 (≠ 0); a request with position 5 is
stored verbatim. -/
theorem createList_position_zero_indistinguishable_witness :
    ListService.CreateListPosition 0
        [⟨1, 10, 1, "todo", "#FFFFFF", 3, none, true⟩] 1 ≠ 0
    ∧ ListService.CreateListPosition 5
        [⟨1, 10, 1, "todo", "#FFFFFF", 3, none, true⟩] 1 = 5 :=
  ⟨(createList_position_zero_indistinguishable
      [⟨1, 10, 1, "todo", "#FFFFFF", 3, none, true⟩] 1).2.2 (by decide) (by decide),
   (createList_position_zero_indistinguishable
      [⟨1, 10, 1, "todo", "#FFFFFF", 3, none, true⟩] 1).2.1 5 (by decide)⟩

/-! # Error taxonomy (internal/utils/errors.go) -/

/-- utils.AppError constructors (NewNotFoundError, NewBadRequestError,
NewInternalError, NewConflictError) plus the middleware-only outcomes. -/
inductive AppError where
  | notFound (msg : String)
  | badRequest (msg : String)
  | unauthorized (msg : String)
  | forbidden (msg : String)
  | conflict (msg : String)
  | internal (msg : String)
deriving Repr, DecidableEq

/-- HTTP status code attached to each constructor in errors.go. -/
def AppError.statusCode : AppError → Nat
  | .notFound _ => 404
  | .badRequest _ => 400
  | .unauthorized _ => 401
  | .forbidden _ => 403
  | .conflict _ => 409
  | .internal _ => 500

/-- Database state after running a statement whose result is `r`: on an
error no write was executed (or the statement aborted), so the table is
unchanged. -/
def dbAfter {α : Type} (r : Except String (List α)) (table : List α) : List α :=
  match r with
  | .ok ts => ts
  | .error _ => table

/-! # Task repository and service (claims C2, C3, C4)

Embedding of internal/repositories/task.go (PartialUpdate, MoveToList,
Delete, GetByUID) and internal/services/task.go (error reclassification). -/

/-- Row of the `task` table (models.Task). -/
structure TaskRow where
  id : Nat
  taskUid : Nat
  listId : Nat
  title : String
  description : Option String
  priority : Option String
  status : String
  color : String
  position : Option Int
  isCompleted : Bool
  dueDate : Option Nat
  completedAt : Option Nat
  createdAt : Nat
  updatedAt : Option Nat
  isActive : Bool
deriving Repr, DecidableEq

/-- models.TaskUpdateRequest: every field is a Go pointer, `none` = absent. -/
structure TaskUpdateRequest where
  title : Option String
  description : Option String
  priority : Option String
  status : Option String
  color : Option String
  position : Option Int
  dueDate : Option Nat
  isCompleted : Option Bool
deriving Repr, DecidableEq

namespace TaskRepo

/-- One `SET` assignment emitted by taskRepository.PartialUpdate. -/
inductive TaskAssign where
  | title (v : String)
  | description (v : String)
  | priority (v : String)
  | status (v : String)
  | completedAtTime (v : Nat)
  | completedAtNull
  | color (v : String)
  | position (v : Int)
  | dueDate (v : Nat)
  | isCompleted (v : Bool)
  | updatedAt (v : Nat)
deriving Repr, DecidableEq

/-- Target column name of an assignment; `completedAtTime` and
`completedAtNull` both write the `completed_at` column. -/
def TaskAssign.col : TaskAssign → String
  | .title _ => "title"
  | .description _ => "description"
  | .priority _ => "priority"
  | .status _ => "status"
  | .completedAtTime _ => "completed_at"
  | .completedAtNull => "completed_at"
  | .color _ => "color"
  | .position _ => "position"
  | .dueDate _ => "due_date"
  | .isCompleted _ => "is_completed"
  | .updatedAt _ => "updated_at"

/-- The `setParts` list built by taskRepository.PartialUpdate, in source
order: a present `status` also stages `completed_at = now` when the value
is "completed" and `completed_at = NULL` otherwise; a present
`is_completed` also stages `completed_at = now` for true and
`completed_at = NULL` for false. -/
def setParts (u : TaskUpdateRequest) (now : Nat) : List TaskAssign :=
  (match u.title with | some v => [.title v] | none => [])
  ++ (match u.description with | some v => [.description v] | none => [])
  ++ (match u.priority with | some v => [.priority v] | none => [])
  ++ (match u.status with
      | some v =>
          [.status v]
          ++ (if v = "completed" then [.completedAtTime now] else [.completedAtNull])
      | none => [])
  ++ (match u.color with | some v => [.color v] | none => [])
  ++ (match u.position with | some v => [.position v] | none => [])
  ++ (match u.dueDate with | some v => [.dueDate v] | none => [])
  ++ (match u.isCompleted with
      | some v =>
          [.isCompleted v]
          ++ (if v then [.completedAtTime now] else [.completedAtNull])
      | none => [])

/-- Apply one `SET` assignment to a row. -/
def applyAssign (t : TaskRow) : TaskAssign → TaskRow
  | .title v => { t with title := v }
  | .description v => { t with description := some v }
  | .priority v => { t with priority := some v }
  | .status v => { t with status := v }
  | .completedAtTime v => { t with completedAt := some v }
  | .completedAtNull => { t with completedAt := none }
  | .color v => { t with color := v }
  | .position v => { t with position := some v }
  | .dueDate v => { t with dueDate := some v }
  | .isCompleted v => { t with isCompleted := v }
  | .updatedAt v => { t with updatedAt := some v }

def applyAssigns (parts : List TaskAssign) (t : TaskRow) : TaskRow :=
  parts.foldl applyAssign t

/-- Whether some column receives two assignments.  PostgreSQL rejects an
UPDATE whose SET clause assigns the same column twice ("multiple
assignments to same column"), so Exec fails in that case. -/
def hasDupCol : List TaskAssign → Bool
  | [] => false
  | a :: rest => rest.any (fun b => b.col == a.col) || hasDupCol rest

/-- taskRepository.PartialUpdate acting on the single row addressed by the
WHERE clause (`task_uid = $1 AND is_active = true`).  Error strings are the
exact Go error messages; "failed to update task" is the wrapped Exec
failure produced when the built query assigns `completed_at` twice. -/
def PartialUpdate (u : TaskUpdateRequest) (now : Nat) (t : TaskRow) :
    Except String TaskRow :=
  let parts := setParts u now
  if parts.isEmpty then .error "no fields to update"
  else
    let allParts := parts ++ [.updatedAt now]
    if hasDupCol allParts then .error "failed to update task"
    else if t.isActive then .ok (applyAssigns allParts t)
    else .error "task not found"

/-- taskRepository.PartialUpdate at table level: the UPDATE touches every
row matching `task_uid = $1 AND is_active = true`; zero affected rows give
"task not found". -/
def PartialUpdateTable (u : TaskUpdateRequest) (now : Nat) (uid : Nat)
    (tasks : List TaskRow) : Except String (List TaskRow) :=
  let parts := setParts u now
  if parts.isEmpty then .error "no fields to update"
  else
    let allParts := parts ++ [.updatedAt now]
    if hasDupCol allParts then .error "failed to update task"
    else if tasks.any (fun t => t.taskUid == uid && t.isActive) then
      .ok (tasks.map (fun t =>
        if t.taskUid == uid && t.isActive then applyAssigns allParts t else t))
    else .error "task not found"

/-- taskRepository.MoveToList on the addressed active row:
`UPDATE task SET list_id = $2, updated_at = $3
 WHERE task_uid = $1 AND is_active = true`. -/
def MoveToList (t : TaskRow) (newListId : Nat) (now : Nat) : TaskRow :=
  { t with listId := newListId, updatedAt := some now }

/-- taskRepository.Delete:
`UPDATE task SET is_active = false WHERE task_uid = $1 AND is_active = true`;
zero affected rows give "task not found". -/
def Delete (tasks : List TaskRow) (uid : Nat) : Except String (List TaskRow) :=
  if tasks.any (fun t => t.taskUid == uid && t.isActive) then
    .ok (tasks.map (fun t =>
      if t.taskUid == uid && t.isActive then { t with isActive := false } else t))
  else .error "task not found"

/-- taskRepository.GetByUID:
`SELECT ... FROM task WHERE task_uid = $1 AND is_active = true`. -/
def GetByUID (tasks : List TaskRow) (uid : Nat) : Option TaskRow :=
  tasks.find? (fun t => t.taskUid == uid && t.isActive)

end TaskRepo

namespace TaskService

/-- Error reclassification in TaskService.PartialUpdateTask: only the
string "task not found" becomes NotFound; every other repository error —
including "no fields to update" — becomes Internal. -/
def mapPartialUpdateError (e : String) : AppError :=
  if e = "task not found" then .notFound "Task not found"
  else .internal "Failed to update task"

/-- TaskService.PartialUpdateTask (without the final re-fetch, which does
not affect the stored state). -/
def PartialUpdateTask (u : TaskUpdateRequest) (now : Nat) (uid : Nat)
    (tasks : List TaskRow) : Except AppError (List TaskRow) :=
  match TaskRepo.PartialUpdateTable u now uid tasks with
  | .error e => .error (mapPartialUpdateError e)
  | .ok ts => .ok ts

end TaskService

namespace TaskRepo

/-- Whether an assignment writes the `completed_at` column. -/
def TaskAssign.touchesCompletedAt : TaskAssign → Bool
  | .completedAtTime _ => true
  | .completedAtNull => true
  | _ => false

theorem applyAssigns_append (xs ys : List TaskAssign) (t : TaskRow) :
    applyAssigns (xs ++ ys) t = applyAssigns ys (applyAssigns xs t) :=
  List.foldl_append ..

theorem completedAt_of_no_touch (xs : List TaskAssign) : ∀ t : TaskRow,
    (∀ a ∈ xs, a.touchesCompletedAt = false) →
    (applyAssigns xs t).completedAt = t.completedAt := by
  induction xs with
  | nil => intro t _; rfl
  | cons a rest ih =>
    intro t h
    have ha := h a (List.mem_cons_self a rest)
    have hrest : ∀ b ∈ rest, b.touchesCompletedAt = false :=
      fun b hb => h b (List.mem_cons_of_mem a hb)
    show (applyAssigns rest (applyAssign t a)).completedAt = t.completedAt
    rw [ih (applyAssign t a) hrest]
    cases a <;> simp_all [TaskAssign.touchesCompletedAt, applyAssign]

/-- The `completed_at` value produced by the UPDATE built from `setParts`:
the `is_completed` trigger is staged after the `status` trigger, so when
both are present the later assignment is the one reflected here (in
PostgreSQL that query errors out instead; see `PartialUpdate`). -/
theorem applyAssigns_nil (t : TaskRow) : applyAssigns [] t = t := rfl

/-- The `completed_at` value produced by applying the assignments built
from `setParts` (plus the trailing `updated_at`): the `is_completed`
trigger is staged after the `status` trigger, so when both are present the
later assignment is the one reflected here (in PostgreSQL the combined
query errors out instead; see `PartialUpdate`). -/
theorem completedAt_after_setParts (u : TaskUpdateRequest) (now : Nat)
    (t : TaskRow) :
    (applyAssigns (setParts u now ++ [.updatedAt now]) t).completedAt
      = (match u.isCompleted with
         | some true => some now
         | some false => none
         | none =>
           match u.status with
           | some s => if s = "completed" then some now else none
           | none => t.completedAt) := by
  have hseg6 : ∀ a ∈ (match u.dueDate with
      | some v => [TaskAssign.dueDate v] | none => ([] : List TaskAssign)),
      a.touchesCompletedAt = false := by
    cases u.dueDate <;> simp [TaskAssign.touchesCompletedAt]
  have hseg5 : ∀ a ∈ (match u.position with
      | some v => [TaskAssign.position v] | none => ([] : List TaskAssign)),
      a.touchesCompletedAt = false := by
    cases u.position <;> simp [TaskAssign.touchesCompletedAt]
  have hseg4 : ∀ a ∈ (match u.color with
      | some v => [TaskAssign.color v] | none => ([] : List TaskAssign)),
      a.touchesCompletedAt = false := by
    cases u.color <;> simp [TaskAssign.touchesCompletedAt]
  have hseg3 : ∀ a ∈ (match u.priority with
      | some v => [TaskAssign.priority v] | none => ([] : List TaskAssign)),
      a.touchesCompletedAt = false := by
    cases u.priority <;> simp [TaskAssign.touchesCompletedAt]
  have hseg2 : ∀ a ∈ (match u.description with
      | some v => [TaskAssign.description v] | none => ([] : List TaskAssign)),
      a.touchesCompletedAt = false := by
    cases u.description <;> simp [TaskAssign.touchesCompletedAt]
  have hseg1 : ∀ a ∈ (match u.title with
      | some v => [TaskAssign.title v] | none => ([] : List TaskAssign)),
      a.touchesCompletedAt = false := by
    cases u.title <;> simp [TaskAssign.touchesCompletedAt]
  have hupd : ∀ X : TaskRow,
      (applyAssigns [TaskAssign.updatedAt now] X).completedAt = X.completedAt :=
    fun X => rfl
  rw [applyAssigns_append, hupd]
  simp only [setParts, applyAssigns_append]
  rcases hic : u.isCompleted with _ | b
  · simp only [applyAssigns_nil]
    rw [completedAt_of_no_touch _ _ hseg6, completedAt_of_no_touch _ _ hseg5,
      completedAt_of_no_touch _ _ hseg4]
    rcases hs : u.status with _ | s
    · simp only [applyAssigns_nil]
      rw [completedAt_of_no_touch _ _ hseg3, completedAt_of_no_touch _ _ hseg2,
        completedAt_of_no_touch _ _ hseg1]
    · by_cases hcs : s = "completed"
      · subst hcs
        simp [applyAssigns_append, applyAssigns, applyAssign]
      · simp [applyAssigns_append, applyAssigns, applyAssign, hcs]
  · cases b <;> simp [applyAssigns_append, applyAssigns, applyAssign]

end TaskRepo

/-! ## Claims C3 and C4 -/

/-- Counterexample to C3 as frozen: a partial update that sets BOTH
`status = "completed"` and `is_completed = true` stages two assignments to
`completed_at`; PostgreSQL rejects such an UPDATE ("multiple assignments to
same column"), so the operation fails and the stored `completed_at` stays
NULL, although the claim requires it to become non-null for this input. -/
theorem task_partialUpdate_both_triggers_fails :
    TaskRepo.PartialUpdate
      ⟨none, none, none, some "completed", none, none, none, some true⟩ 5
      ⟨1, 1, 1, "A", none, none, "todo", "#FFFFFF", none, false, none, none, 0,
        none, true⟩
      = Except.error "failed to update task" := by decide

/-- C3 (amended): for every partial update that sets at most one of
`status` / `is_completed` (setting both makes the built UPDATE fail, see
the counterexample) and at least one of them, if the update succeeds then
the stored `completed_at` equals the current time exactly when the set
trigger implies completion (`status = "completed"` or
`is_completed = true`), and is NULL exactly otherwise; consequently after a
sequence of such single-trigger updates `completed_at` is non-null iff the
last-applied trigger implies completion. -/
theorem task_partialUpdate_completion_rule
    (u : TaskUpdateRequest) (now : Nat) (t r : TaskRow)
    (hone : u.status = none ∨ u.isCompleted = none)
    (htrig : u.status ≠ none ∨ u.isCompleted ≠ none)
    (hok : TaskRepo.PartialUpdate u now t = Except.ok r) :
    (r.completedAt = some now ↔
        (u.status = some "completed" ∨ u.isCompleted = some true))
    ∧ (r.completedAt = none ↔
        ¬(u.status = some "completed" ∨ u.isCompleted = some true)) := by
  have hr : r = TaskRepo.applyAssigns
      (TaskRepo.setParts u now ++ [.updatedAt now]) t := by
    simp only [TaskRepo.PartialUpdate] at hok
    split at hok
    · cases hok
    · split at hok
      · cases hok
      · split at hok
        · cases hok
          rfl
        · cases hok
  subst hr
  rw [TaskRepo.completedAt_after_setParts]
  rcases hone with h0 | h0
  · rcases htrig with h1 | h1
    · exact absurd h0 h1
    · cases hb : u.isCompleted with
      | none => exact absurd hb h1
      | some b => cases b <;> simp [h0, hb]
  · rcases htrig with h1 | h1
    · cases hs : u.status with
      | none => exact absurd hs h1
      | some s => by_cases hcs : s = "completed" <;> simp [h0, hs, hcs]
    · exact absurd h0 h1

/-- Witness for C3: setting only `is_completed = true` on an active task
with NULL `completed_at` at time 5 yields `completed_at = some 5`. -/
theorem task_partialUpdate_completion_rule_witness :
    (⟨1, 1, 1, "A", none, none, "todo", "#FFFFFF", none, true, none, some 5, 0,
      some 5, true⟩ : TaskRow).completedAt = some 5 :=
  ((task_partialUpdate_completion_rule
      ⟨none, none, none, none, none, none, none, some true⟩ 5
      ⟨1, 1, 1, "A", none, none, "todo", "#FFFFFF", none, false, none, none, 0,
        none, true⟩
      ⟨1, 1, 1, "A", none, none, "todo", "#FFFFFF", none, true, none, some 5, 0,
        some 5, true⟩
      (Or.inl rfl) (Or.inr (by decide)) (by decide)).1).mpr (Or.inr rfl)

/-- Counterexample to C4 as frozen: MoveToList also stamps `updated_at`
(`UPDATE task SET list_id = $2, updated_at = $3 ...`), so not every field
other than `list_id` is unchanged. -/
theorem moveTask_changes_updatedAt :
    (TaskRepo.MoveToList
      ⟨1, 1, 1, "A", none, none, "todo", "#FFFFFF", some 2, false, none, none,
        0, none, true⟩ 2 5).updatedAt
      ≠ (⟨1, 1, 1, "A", none, none, "todo", "#FFFFFF", some 2, false, none,
        none, 0, none, true⟩ : TaskRow).updatedAt := by decide

/-- C4 (amended): MoveToList changes exactly the parent-list reference and
the `updated_at` stamp; the task's `position` is numerically unchanged and
every other field is unchanged, regardless of the destination list's
existing positions. -/
theorem moveTask_frame (t : TaskRow) (l now : Nat) :
    (TaskRepo.MoveToList t l now).position = t.position
    ∧ (TaskRepo.MoveToList t l now).listId = l
    ∧ (TaskRepo.MoveToList t l now).updatedAt = some now
    ∧ (TaskRepo.MoveToList t l now).id = t.id
    ∧ (TaskRepo.MoveToList t l now).taskUid = t.taskUid
    ∧ (TaskRepo.MoveToList t l now).title = t.title
    ∧ (TaskRepo.MoveToList t l now).description = t.description
    ∧ (TaskRepo.MoveToList t l now).priority = t.priority
    ∧ (TaskRepo.MoveToList t l now).status = t.status
    ∧ (TaskRepo.MoveToList t l now).color = t.color
    ∧ (TaskRepo.MoveToList t l now).isCompleted = t.isCompleted
    ∧ (TaskRepo.MoveToList t l now).dueDate = t.dueDate
    ∧ (TaskRepo.MoveToList t l now).completedAt = t.completedAt
    ∧ (TaskRepo.MoveToList t l now).createdAt = t.createdAt
    ∧ (TaskRepo.MoveToList t l now).isActive = t.isActive :=
  ⟨rfl, rfl, rfl, rfl, rfl, rfl, rfl, rfl, rfl, rfl, rfl, rfl, rfl, rfl, rfl⟩

/-! # Partial updates of lists, projects and notes (claim C2)

Embedding of listRepository.PartialUpdate, projectRepository.PartialUpdate
and noteRepository.PartialUpdate, and of the per-entity error surfacing in
ListService.PartialUpdateList, ProjectService.PartialUpdateProject,
TaskService.PartialUpdateTask and NoteHandler.PartialUpdateNote. -/

/-- models.ListUpdateRequest. -/
structure ListUpdateRequest where
  name : Option String
  color : Option String
  position : Option Int
deriving Repr, DecidableEq

/-- Row of the `project` table (models.Project, wired repository). -/
structure ProjectRow where
  id : Nat
  projectUid : Nat
  userId : Nat
  name : String
  description : Option String
  status : String
  color : String
  position : Option Int
  startDate : Option Nat
  endDate : Option Nat
  isPrivate : Bool
  dbmlContent : Option String
  dbmlLayoutData : Option String
  flowchartContent : Option String
  updatedAt : Option Nat
  isActive : Bool
deriving Repr, DecidableEq

/-- models.ProjectUpdateRequest (wired version, 11 optional fields). -/
structure ProjectUpdateRequest where
  name : Option String
  description : Option String
  status : Option String
  color : Option String
  position : Option Int
  startDate : Option Nat
  endDate : Option Nat
  isPrivate : Option Bool
  dbmlContent : Option String
  dbmlLayoutData : Option String
  flowchartContent : Option String
deriving Repr, DecidableEq

/-- models.NoteUpdateRequest as seen by the repository (`ContentJSONString`
already marshalled by the service). -/
structure NoteUpdateRequest where
  title : Option String
  contentJsonString : Option String
  folderId : Option Nat
  position : Option Int
deriving Repr, DecidableEq

namespace ListRepo

/-- listRepository.GetByUID:
`SELECT ... FROM list WHERE list_uid = $1 AND is_active = true`. -/
def GetByUID (lists : List ListRow) (uid : Nat) : Option ListRow :=
  lists.find? (fun l => l.listUid == uid && l.isActive)

/-- One `SET` assignment emitted by listRepository.PartialUpdate. -/
inductive ListAssign where
  | name (v : String)
  | color (v : String)
  | position (v : Int)
  | updatedAt (v : Nat)
deriving Repr, DecidableEq

/-- The `setParts` list of listRepository.PartialUpdate, in source order. -/
def setParts (u : ListUpdateRequest) : List ListAssign :=
  (match u.name with | some v => [.name v] | none => [])
  ++ (match u.color with | some v => [.color v] | none => [])
  ++ (match u.position with | some v => [.position v] | none => [])

def applyAssign (l : ListRow) : ListAssign → ListRow
  | .name v => { l with name := v }
  | .color v => { l with color := v }
  | .position v => { l with position := v }
  | .updatedAt v => { l with updatedAt := some v }

/-- listRepository.PartialUpdate at table level (`WHERE list_uid = $1 AND
is_active = true`); exact Go error strings. -/
def PartialUpdateTable (u : ListUpdateRequest) (now : Nat) (uid : Nat)
    (lists : List ListRow) : Except String (List ListRow) :=
  let parts := setParts u
  if parts.isEmpty then .error "no fields to update"
  else if lists.any (fun l => l.listUid == uid && l.isActive) then
    .ok (lists.map (fun l =>
      if l.listUid == uid && l.isActive then
        (parts ++ [ListAssign.updatedAt now]).foldl applyAssign l
      else l))
  else .error "list not found"

end ListRepo

namespace ListService

/-- Error reclassification in ListService.PartialUpdateList: "list not
found" → NotFound, "no fields to update" → BadRequest, else Internal. -/
def mapPartialUpdateError (e : String) : AppError :=
  if e = "list not found" then .notFound "List not found"
  else if e = "no fields to update" then .badRequest "No fields to update"
  else .internal "Failed to update list"

/-- ListService.PartialUpdateList (without the final re-fetch): it first
re-fetches the list with listRepo.GetByUID — a missing list yields
NotFound "List not found" before the repository update runs — and then
maps the repository error through `mapPartialUpdateError`. -/
def PartialUpdateList (u : ListUpdateRequest) (now : Nat) (uid : Nat)
    (lists : List ListRow) : Except AppError (List ListRow) :=
  match ListRepo.GetByUID lists uid with
  | none => .error (.notFound "List not found")
  | some _ =>
    match ListRepo.PartialUpdateTable u now uid lists with
    | .error e => .error (mapPartialUpdateError e)
    | .ok ls => .ok ls

end ListService

namespace ProjectRepo

/-- One `SET` assignment emitted by projectRepository.PartialUpdate. -/
inductive ProjectAssign where
  | name (v : String)
  | description (v : String)
  | status (v : String)
  | color (v : String)
  | position (v : Int)
  | startDate (v : Nat)
  | endDate (v : Nat)
  | isPrivate (v : Bool)
  | dbmlContent (v : String)
  | dbmlLayoutData (v : String)
  | flowchartContent (v : String)
  | updatedAt (v : Nat)
deriving Repr, DecidableEq

/-- The `setParts` list of projectRepository.PartialUpdate, in source
order. -/
def setParts (u : ProjectUpdateRequest) : List ProjectAssign :=
  (match u.name with | some v => [.name v] | none => [])
  ++ (match u.description with | some v => [.description v] | none => [])
  ++ (match u.status with | some v => [.status v] | none => [])
  ++ (match u.color with | some v => [.color v] | none => [])
  ++ (match u.position with | some v => [.position v] | none => [])
  ++ (match u.startDate with | some v => [.startDate v] | none => [])
  ++ (match u.endDate with | some v => [.endDate v] | none => [])
  ++ (match u.isPrivate with | some v => [.isPrivate v] | none => [])
  ++ (match u.dbmlContent with | some v => [.dbmlContent v] | none => [])
  ++ (match u.dbmlLayoutData with | some v => [.dbmlLayoutData v] | none => [])
  ++ (match u.flowchartContent with | some v => [.flowchartContent v] | none => [])

def applyAssign (p : ProjectRow) : ProjectAssign → ProjectRow
  | .name v => { p with name := v }
  | .description v => { p with description := some v }
  | .status v => { p with status := v }
  | .color v => { p with color := v }
  | .position v => { p with position := some v }
  | .startDate v => { p with startDate := some v }
  | .endDate v => { p with endDate := some v }
  | .isPrivate v => { p with isPrivate := v }
  | .dbmlContent v => { p with dbmlContent := some v }
  | .dbmlLayoutData v => { p with dbmlLayoutData := some v }
  | .flowchartContent v => { p with flowchartContent := some v }
  | .updatedAt v => { p with updatedAt := some v }

/-- projectRepository.GetByUID:
`SELECT ... FROM project WHERE project_uid = $1 AND is_active = true`. -/
def GetByUID (projects : List ProjectRow) (uid : Nat) : Option ProjectRow :=
  projects.find? (fun p => p.projectUid == uid && p.isActive)

/-- projectRepository.PartialUpdate at table level (`WHERE project_uid = $1
AND is_active = true`); exact Go error strings. -/
def PartialUpdateTable (u : ProjectUpdateRequest) (now : Nat) (uid : Nat)
    (projects : List ProjectRow) : Except String (List ProjectRow) :=
  let parts := setParts u
  if parts.isEmpty then .error "no fields to update"
  else if projects.any (fun p => p.projectUid == uid && p.isActive) then
    .ok (projects.map (fun p =>
      if p.projectUid == uid && p.isActive then
        (parts ++ [ProjectAssign.updatedAt now]).foldl applyAssign p
      else p))
  else .error "project not found"

end ProjectRepo

namespace ProjectService

/-- ProjectService.PartialUpdateProject: it first re-fetches the project
(GetByUID; missing → NotFound), then calls the repository and wraps EVERY
repository error — including "no fields to update" — as Internal
("Failed to update project"). -/
def PartialUpdateProject (u : ProjectUpdateRequest) (now : Nat) (uid : Nat)
    (projects : List ProjectRow) : Except AppError (List ProjectRow) :=
  match ProjectRepo.GetByUID projects uid with
  | none => .error (.notFound "Project not found")
  | some _ =>
    match ProjectRepo.PartialUpdateTable u now uid projects with
    | .error _ => .error (.internal "Failed to update project")
    | .ok ps => .ok ps

end ProjectService

namespace NoteRepo

/-- One `SET` assignment emitted by noteRepository.PartialUpdate. -/
inductive NoteAssign where
  | title (v : String)
  | contentJson (v : String)
  | folderId (v : Nat)
  | position (v : Int)
  | updatedAt (v : Nat)
deriving Repr, DecidableEq

/-- The `setParts` list of noteRepository.PartialUpdate, in source order:
title, content_json, folder_id, position. -/
def setParts (u : NoteUpdateRequest) : List NoteAssign :=
  (match u.title with | some v => [.title v] | none => [])
  ++ (match u.contentJsonString with | some v => [.contentJson v] | none => [])
  ++ (match u.folderId with | some v => [.folderId v] | none => [])
  ++ (match u.position with | some v => [.position v] | none => [])

def applyAssign (n : NoteRow) : NoteAssign → NoteRow
  | .title v => { n with title := v }
  | .contentJson v => { n with contentJson := v }
  | .folderId v => { n with folderId := some v }
  | .position v => { n with position := some v }
  | .updatedAt v => { n with updatedAt := some v }

/-- noteRepository.PartialUpdate at table level (`WHERE note_uid = $1 AND
is_active = true`); the not-found message interpolates the uid. -/
def PartialUpdateTable (u : NoteUpdateRequest) (now : Nat) (uid : Nat)
    (notes : List NoteRow) : Except String (List NoteRow) :=
  let parts := setParts u
  if parts.isEmpty then .error "no fields to update"
  else if notes.any (fun n => n.noteUid == uid && n.isActive) then
    .ok (notes.map (fun n =>
      if n.noteUid == uid && n.isActive then
        (parts ++ [NoteAssign.updatedAt now]).foldl applyAssign n
      else n))
  else .error ("note not found: " ++ toString uid)

end NoteRepo

namespace NoteHandler

/-- NoteHandler.PartialUpdateNote: NoteService.PartialUpdateNote passes the
repository error through unchanged, and the handler maps EVERY service
error to a 404 "Note not found" response
(`utils.ErrorResponse(c, http.StatusNotFound, "Note not found")`). -/
def PartialUpdateNote (u : NoteUpdateRequest) (now : Nat) (uid : Nat)
    (notes : List NoteRow) : Except AppError (List NoteRow) :=
  match NoteRepo.PartialUpdateTable u now uid notes with
  | .error _ => .error (.notFound "Note not found")
  | .ok ns => .ok ns

end NoteHandler

/-! ## Claim C2 -/

/-- The all-absent task update request. -/
def emptyTaskUpdate : TaskUpdateRequest :=
  ⟨none, none, none, none, none, none, none, none⟩

/-- The all-absent list update request. -/
def emptyListUpdate : ListUpdateRequest := ⟨none, none, none⟩

/-- The all-absent project update request. -/
def emptyProjectUpdate : ProjectUpdateRequest :=
  ⟨none, none, none, none, none, none, none, none, none, none, none⟩

/-- The all-absent note update request. -/
def emptyNoteUpdate : NoteUpdateRequest := ⟨none, none, none, none⟩

/-- Counterexample to C2 as frozen: for the Task entity an empty partial
update is surfaced as Internal (HTTP 500), not as the claimed client error
BadRequest (HTTP 400): TaskService.PartialUpdateTask only reclassifies
"task not found" and wraps everything else as Internal. -/
theorem task_empty_update_surfaces_internal :
    TaskService.PartialUpdateTask emptyTaskUpdate 5 1
        [⟨1, 1, 1, "A", none, none, "todo", "#FFFFFF", none, false, none, none,
          0, none, true⟩]
      = Except.error (AppError.internal "Failed to update task")
    ∧ (AppError.internal "Failed to update task").statusCode = 500 := by
  exact ⟨rfl, rfl⟩

/-- C2 (amended): an empty partial update always fails with the
NoFieldsToUpdate condition before any SQL executes, leaving the stored
table unchanged (no field, including updated_at, is modified), for every
entity; but the surfaced classification differs by entity: for an existing
List the condition surfaces as BadRequest 400 (client error) as claimed
(the service's GetByUID pre-check returns NotFound first when the list is
missing), while Task and Project surface Internal 500 and Note surfaces
NotFound 404 through its handler. -/
theorem empty_partial_update_behaviour
    (now uid : Nat) (tasks : List TaskRow) (lists : List ListRow)
    (projects : List ProjectRow) (notes : List NoteRow) (p : ProjectRow)
    (hp : ProjectRepo.GetByUID projects uid = some p) (l : ListRow)
    (hl : ListRepo.GetByUID lists uid = some l) :
    (TaskRepo.PartialUpdateTable emptyTaskUpdate now uid tasks
        = .error "no fields to update")
    ∧ (dbAfter (TaskRepo.PartialUpdateTable emptyTaskUpdate now uid tasks) tasks
        = tasks)
    ∧ (TaskService.PartialUpdateTask emptyTaskUpdate now uid tasks
        = .error (.internal "Failed to update task"))
    ∧ (ListRepo.PartialUpdateTable emptyListUpdate now uid lists
        = .error "no fields to update")
    ∧ (dbAfter (ListRepo.PartialUpdateTable emptyListUpdate now uid lists) lists
        = lists)
    ∧ (ListService.PartialUpdateList emptyListUpdate now uid lists
        = .error (.badRequest "No fields to update"))
    ∧ ((AppError.badRequest "No fields to update").statusCode = 400)
    ∧ (ProjectRepo.PartialUpdateTable emptyProjectUpdate now uid projects
        = .error "no fields to update")
    ∧ (dbAfter (ProjectRepo.PartialUpdateTable emptyProjectUpdate now uid
        projects) projects = projects)
    ∧ (ProjectService.PartialUpdateProject emptyProjectUpdate now uid projects
        = .error (.internal "Failed to update project"))
    ∧ (NoteRepo.PartialUpdateTable emptyNoteUpdate now uid notes
        = .error ("note not found: " ++ toString uid)
        ∨ NoteRepo.PartialUpdateTable emptyNoteUpdate now uid notes
        = .error "no fields to update")
    ∧ (dbAfter (NoteRepo.PartialUpdateTable emptyNoteUpdate now uid notes) notes
        = notes)
    ∧ (NoteHandler.PartialUpdateNote emptyNoteUpdate now uid notes
        = .error (.notFound "Note not found")) := by
  refine ⟨rfl, rfl, rfl, rfl, rfl, ?_, rfl, rfl, rfl, ?_, Or.inr rfl, rfl, rfl⟩
  · simp only [ListService.PartialUpdateList, hl]
    rfl
  · simp only [ProjectService.PartialUpdateProject, hp]
    rfl

/-- Witness for C2: with concrete tables (an existing project and an
existing list with uid 1), an empty task update surfaces Internal and an
empty list update surfaces BadRequest. -/
theorem empty_partial_update_behaviour_witness :
    TaskService.PartialUpdateTask emptyTaskUpdate 5 1 ([] : List TaskRow)
        = Except.error (AppError.internal "Failed to update task")
    ∧ ListService.PartialUpdateList emptyListUpdate 5 1
        [⟨1, 1, 1, "L", "#FFFFFF", 1, none, true⟩]
        = Except.error (AppError.badRequest "No fields to update") :=
  ⟨(empty_partial_update_behaviour 5 1 []
      [⟨1, 1, 1, "L", "#FFFFFF", 1, none, true⟩]
      [⟨1, 1, 1, "P", none, "active",
      "#FFFFFF", none, none, none, false, none, none, none, none, true⟩] []
      ⟨1, 1, 1, "P", none, "active", "#FFFFFF", none, none, none, false, none,
      none, none, none, true⟩ (by decide)
      ⟨1, 1, 1, "L", "#FFFFFF", 1, none, true⟩ (by decide)).2.2.1,
   (empty_partial_update_behaviour 5 1 []
      [⟨1, 1, 1, "L", "#FFFFFF", 1, none, true⟩]
      [⟨1, 1, 1, "P", none, "active",
      "#FFFFFF", none, none, none, false, none, none, none, none, true⟩] []
      ⟨1, 1, 1, "P", none, "active", "#FFFFFF", none, none, none, false, none,
      none, none, none, true⟩ (by decide)
      ⟨1, 1, 1, "L", "#FFFFFF", 1, none, true⟩ (by decide)).2.2.2.2.2.1⟩

/-! # Project progress aggregation (claim C5)

Embedding of taskRepository.CountByProjectUID,
taskRepository.CountCompletedByProjectUID and
ProjectService.GetProjectProgress.  Go's float64 division is modelled with
ℚ, which is exact for the zero/nonzero and quotient facts at issue. -/

namespace TaskRepo

/-- Inner join weight of one task row: the number of (list, project) row
pairs the task joins to under
`JOIN list l ON t.list_id = l.id JOIN project p ON l.project_id = p.id
 WHERE p.project_uid = $1 AND l.is_active AND p.is_active`. -/
def joinWeight (lists : List ListRow) (projects : List ProjectRow)
    (projectUid : Nat) (t : TaskRow) : Nat :=
  ((lists.filter (fun l => l.id == t.listId && l.isActive)).map (fun l =>
    (projects.filter (fun p =>
      p.id == l.projectId && p.projectUid == projectUid && p.isActive)).length)).sum

/-- taskRepository.CountByProjectUID: COUNT(*) over the join, with
`t.is_active = true`. -/
def CountByProjectUID (tasks : List TaskRow) (lists : List ListRow)
    (projects : List ProjectRow) (projectUid : Nat) : Nat :=
  ((tasks.filter (·.isActive)).map (joinWeight lists projects projectUid)).sum

/-- taskRepository.CountCompletedByProjectUID: COUNT(*) over the join, with
`t.is_completed = true AND t.is_active = true`. -/
def CountCompletedByProjectUID (tasks : List TaskRow) (lists : List ListRow)
    (projects : List ProjectRow) (projectUid : Nat) : Nat :=
  ((tasks.filter (fun t => t.isActive && t.isCompleted)).map
    (joinWeight lists projects projectUid)).sum

end TaskRepo

/-- models.ProjectProgressResponse (Progress float64 modelled as ℚ). -/
structure ProjectProgressResponse where
  totalTasks : Int
  completedTasks : Int
  todoTasks : Int
  progress : ℚ
deriving Repr, DecidableEq

namespace ProjectService

/-- ProjectService.GetProjectProgress (after the existence pre-check):
total and completed from the two repository counts,
`todoTasks := totalTasks - completedTasks`,
`progress := float64(completed) / float64(total)` when `totalTasks > 0`
and 0 otherwise. -/
def GetProjectProgress (tasks : List TaskRow) (lists : List ListRow)
    (projects : List ProjectRow) (projectUid : Nat) : ProjectProgressResponse :=
  let total : Int := TaskRepo.CountByProjectUID tasks lists projects projectUid
  let completed : Int :=
    TaskRepo.CountCompletedByProjectUID tasks lists projects projectUid
  { totalTasks := total
    completedTasks := completed
    todoTasks := total - completed
    progress := if total > 0 then (completed : ℚ) / (total : ℚ) else 0 }

end ProjectService

theorem sum_le_of_sublist (l1 l2 : List Nat) (h : l1.Sublist l2) :
    l1.sum ≤ l2.sum := by
  induction h with
  | slnil => exact le_refl 0
  | cons a _ ih => simp only [List.sum_cons]; omega
  | cons₂ a _ ih => simp only [List.sum_cons]; omega

theorem countCompleted_le_countTotal (tasks : List TaskRow)
    (lists : List ListRow) (projects : List ProjectRow) (projectUid : Nat) :
    TaskRepo.CountCompletedByProjectUID tasks lists projects projectUid
      ≤ TaskRepo.CountByProjectUID tasks lists projects projectUid := by
  apply sum_le_of_sublist
  apply List.Sublist.map
  apply List.monotone_filter_right
  intro t ht
  exact (Bool.and_eq_true _ _ |>.mp ht).1

/-! ## Claim C5 -/

/-- Counterexample to C5 as frozen: a project with one active, uncompleted
task has `progress = 0` while `total = 1 ≠ 0`, so "progress equals 0
exactly when total equals 0" is false (progress is 0 whenever the completed
count is 0, even with a positive total). -/
theorem progress_zero_with_nonzero_total :
    (ProjectService.GetProjectProgress
      [⟨1, 6, 1, "A", none, none, "todo", "#FFFFFF", some 1, false, none, none,
        0, none, true⟩]
      [⟨1, 5, 2, "L", "#FFFFFF", 1, none, true⟩]
      [⟨2, 7, 1, "P", none, "active", "#FFFFFF", none, none, none, false, none,
        none, none, none, true⟩] 7).progress = 0
    ∧ (ProjectService.GetProjectProgress
      [⟨1, 6, 1, "A", none, none, "todo", "#FFFFFF", some 1, false, none, none,
        0, none, true⟩]
      [⟨1, 5, 2, "L", "#FFFFFF", 1, none, true⟩]
      [⟨2, 7, 1, "P", none, "active", "#FFFFFF", none, none, none, false, none,
        none, none, none, true⟩] 7).totalTasks = 1 := by
  constructor
  · show (if (1:Int) > 0 then ((0:Int) : ℚ) / ((1:Int) : ℚ) else 0) = 0
    norm_num
  · rfl

/-- C5 (amended): GetProjectProgress returns total = the active-task count
over the project's active lists (of the active project), completed = the
subset count with is_completed = true, todo = total − completed (hence
completed ≤ total and todo ≥ 0), progress = completed/total when total > 0
and 0 when total = 0; and progress = 0 exactly when completed = 0 (not
exactly when total = 0). -/
theorem getProjectProgress_spec (tasks : List TaskRow) (lists : List ListRow)
    (projects : List ProjectRow) (uid : Nat) :
    ((ProjectService.GetProjectProgress tasks lists projects uid).totalTasks
        = (TaskRepo.CountByProjectUID tasks lists projects uid : Int))
    ∧ ((ProjectService.GetProjectProgress tasks lists projects uid).completedTasks
        = (TaskRepo.CountCompletedByProjectUID tasks lists projects uid : Int))
    ∧ ((ProjectService.GetProjectProgress tasks lists projects uid).todoTasks
        = (ProjectService.GetProjectProgress tasks lists projects uid).totalTasks
          - (ProjectService.GetProjectProgress tasks lists projects uid).completedTasks)
    ∧ ((ProjectService.GetProjectProgress tasks lists projects uid).completedTasks
        ≤ (ProjectService.GetProjectProgress tasks lists projects uid).totalTasks)
    ∧ (0 ≤ (ProjectService.GetProjectProgress tasks lists projects uid).todoTasks)
    ∧ ((ProjectService.GetProjectProgress tasks lists projects uid).totalTasks > 0 →
        (ProjectService.GetProjectProgress tasks lists projects uid).progress
          = ((ProjectService.GetProjectProgress tasks lists projects uid).completedTasks : ℚ)
            / ((ProjectService.GetProjectProgress tasks lists projects uid).totalTasks : ℚ))
    ∧ ((ProjectService.GetProjectProgress tasks lists projects uid).totalTasks = 0 →
        (ProjectService.GetProjectProgress tasks lists projects uid).progress = 0)
    ∧ ((ProjectService.GetProjectProgress tasks lists projects uid).progress = 0 ↔
        (ProjectService.GetProjectProgress tasks lists projects uid).completedTasks = 0) := by
  have hle : (TaskRepo.CountCompletedByProjectUID tasks lists projects uid : Int)
      ≤ (TaskRepo.CountByProjectUID tasks lists projects uid : Int) := by
    exact_mod_cast countCompleted_le_countTotal tasks lists projects uid
  have htot : (ProjectService.GetProjectProgress tasks lists projects uid).totalTasks
      = (TaskRepo.CountByProjectUID tasks lists projects uid : Int) := rfl
  have hcomp : (ProjectService.GetProjectProgress tasks lists projects uid).completedTasks
      = (TaskRepo.CountCompletedByProjectUID tasks lists projects uid : Int) := rfl
  have hprog : (ProjectService.GetProjectProgress tasks lists projects uid).progress
      = if (TaskRepo.CountByProjectUID tasks lists projects uid : Int) > 0 then
          ((TaskRepo.CountCompletedByProjectUID tasks lists projects uid : Int) : ℚ)
            / ((TaskRepo.CountByProjectUID tasks lists projects uid : Int) : ℚ)
        else 0 := rfl
  have hcompNat : ((TaskRepo.CountCompletedByProjectUID tasks lists projects uid
      : Int) = 0) ↔ TaskRepo.CountCompletedByProjectUID tasks lists projects uid = 0 := by
    exact_mod_cast Iff.rfl
  refine ⟨htot, hcomp, rfl, ?_, ?_, ?_, ?_, ?_⟩
  · rw [htot, hcomp]; exact hle
  · show (0 : Int) ≤ _ - _
    omega
  · rw [htot, hcomp, hprog]
    intro h
    rw [if_pos h]
  · rw [htot, hprog]
    intro h
    rw [if_neg (by omega)]
  · rw [hcomp, hprog]
    by_cases h : (TaskRepo.CountByProjectUID tasks lists projects uid : Int) > 0
    · rw [if_pos h, div_eq_zero_iff]
      constructor
      · rintro (hc | hc)
        · exact_mod_cast hc
        · exfalso
          have hz : (TaskRepo.CountByProjectUID tasks lists projects uid : Int) = 0 := by
            exact_mod_cast hc
          omega
      · intro hc
        left
        exact_mod_cast hc
    · rw [if_neg h]
      have hc : (TaskRepo.CountCompletedByProjectUID tasks lists projects uid : Int) = 0 := by
        omega
      simp [hc]

/-- Witness for C5: on a concrete project with one active uncompleted task,
progress equals completed/total (total = 1 > 0). -/
theorem getProjectProgress_spec_witness :
    (ProjectService.GetProjectProgress
      [⟨1, 6, 1, "B", none, none, "todo", "#FFFFFF", some 1, false, none, none,
        0, none, true⟩]
      [⟨1, 5, 2, "L", "#FFFFFF", 1, none, true⟩]
      [⟨2, 7, 1, "P", none, "active", "#FFFFFF", none, none, none, false, none,
        none, none, none, true⟩] 7).progress
      = ((ProjectService.GetProjectProgress
          [⟨1, 6, 1, "B", none, none, "todo", "#FFFFFF", some 1, false, none,
            none, 0, none, true⟩]
          [⟨1, 5, 2, "L", "#FFFFFF", 1, none, true⟩]
          [⟨2, 7, 1, "P", none, "active", "#FFFFFF", none, none, none, false,
            none, none, none, none, true⟩] 7).completedTasks : ℚ)
        / ((ProjectService.GetProjectProgress
          [⟨1, 6, 1, "B", none, none, "todo", "#FFFFFF", some 1, false, none,
            none, 0, none, true⟩]
          [⟨1, 5, 2, "L", "#FFFFFF", 1, none, true⟩]
          [⟨2, 7, 1, "P", none, "active", "#FFFFFF", none, none, none, false,
            none, none, none, none, true⟩] 7).totalTasks : ℚ) :=
  (getProjectProgress_spec
    [⟨1, 6, 1, "B", none, none, "todo", "#FFFFFF", some 1, false, none, none,
      0, none, true⟩]
    [⟨1, 5, 2, "L", "#FFFFFF", 1, none, true⟩]
    [⟨2, 7, 1, "P", none, "active", "#FFFFFF", none, none, none, false, none,
      none, none, none, true⟩] 7).2.2.2.2.2.1 (by decide)

/-! # Chat conversation capacity eviction (claim C6)

Embedding of ChatRepository.CreateConversation
(internal/repositories/chat.go): count active conversations of the
project; if ≥ 10, soft-delete the single row selected by
`ORDER BY updated_at ASC NULLS FIRST, created_at ASC LIMIT 1`; then insert
the new conversation. -/

/-- Row of the `chat_conversations` table (models.ChatConversation). -/
structure ConvRow where
  id : Nat
  conversationUid : Nat
  projectId : Nat
  name : String
  createdAt : Nat
  updatedAt : Option Nat
  isActive : Bool
deriving Repr, DecidableEq

namespace ChatRepo

/-- The eviction order `updated_at ASC NULLS FIRST, created_at ASC` as a
boolean total preorder on rows. -/
def convLe (a b : ConvRow) : Bool :=
  match a.updatedAt, b.updatedAt with
  | none, none => decide (a.createdAt ≤ b.createdAt)
  | none, some _ => true
  | some _, none => false
  | some ua, some ub =>
    if ua < ub then true
    else if ub < ua then false
    else decide (a.createdAt ≤ b.createdAt)

theorem convLe_refl (a : ConvRow) : convLe a a := by
  unfold convLe
  cases a.updatedAt <;> simp

theorem convLe_total (a b : ConvRow) : convLe a b ∨ convLe b a := by
  unfold convLe
  cases a.updatedAt <;> cases b.updatedAt <;> simp_all <;> omega

theorem convLe_trans (a b c : ConvRow) :
    convLe a b → convLe b c → convLe a c := by
  unfold convLe
  cases a.updatedAt <;> cases b.updatedAt <;> cases c.updatedAt <;>
    first
      | omega
      | (simp_all; omega)
      | simp_all

/-- `ORDER BY updated_at ASC NULLS FIRST, created_at ASC LIMIT 1`: a
minimal row under `convLe` (first of the minimal ones; PostgreSQL picks an
arbitrary one among full ties). -/
def pickOldest : List ConvRow → Option ConvRow
  | [] => none
  | c :: rest =>
    match pickOldest rest with
    | none => some c
    | some o => if convLe c o then some c else some o

theorem pickOldest_eq_none_iff (xs : List ConvRow) :
    pickOldest xs = none ↔ xs = [] := by
  cases xs with
  | nil => simp [pickOldest]
  | cons c rest =>
    simp only [pickOldest]
    cases pickOldest rest <;> simp
    split <;> simp

theorem pickOldest_spec (xs : List ConvRow) (o : ConvRow)
    (h : pickOldest xs = some o) : o ∈ xs ∧ ∀ x ∈ xs, convLe o x := by
  induction xs generalizing o with
  | nil => cases h
  | cons c rest ih =>
    cases hro : pickOldest rest with
    | none =>
      have hrest : rest = [] := (pickOldest_eq_none_iff rest).mp hro
      have h2 : some c = some o := by rw [← h]; simp [pickOldest, hro]
      cases h2
      subst hrest
      refine ⟨List.mem_cons_self _ _, ?_⟩
      intro x hx
      rcases List.mem_cons.mp hx with hx | hx
      · subst hx; exact convLe_refl _
      · cases hx
    | some p =>
      obtain ⟨hpmem, hpmin⟩ := ih p hro
      by_cases hc : convLe c p
      · have h2 : some c = some o := by rw [← h]; simp [pickOldest, hro, hc]
        cases h2
        refine ⟨List.mem_cons_self _ _, ?_⟩
        intro x hx
        rcases List.mem_cons.mp hx with hx | hx
        · subst hx; exact convLe_refl _
        · exact convLe_trans _ _ _ hc (hpmin x hx)
      · have h2 : some p = some o := by
          rw [← h]; simp [pickOldest, hro, hc]
        cases h2
        refine ⟨List.mem_cons_of_mem _ hpmem, ?_⟩
        intro x hx
        rcases List.mem_cons.mp hx with hx | hx
        · subst hx
          rcases convLe_total x o with htot | htot
          · exact absurd htot hc
          · exact htot
        · exact hpmin x hx

/-- `SELECT ... FROM chat_conversations WHERE project_id = $1 AND
is_active = true`. -/
def activeConvs (convs : List ConvRow) (pid : Nat) : List ConvRow :=
  convs.filter (fun c => c.projectId == pid && c.isActive)

/-- Modelled from the spec: the `chat_conversations` DDL is not in the
repository, and the INSERT in CreateConversation does not mention
`is_active`; per the spec's data model every entity carries an active flag
and new conversations are active (they appear in the active-filtered
reads), so the column default makes the inserted row active, with NULL
`updated_at` and DB-assigned id and created_at. -/
def insertedConversation (uid pid : Nat) (name : String)
    (newId newCreatedAt : Nat) : ConvRow :=
  ⟨newId, uid, pid, name, newCreatedAt, none, true⟩

/-- ChatRepository.CreateConversation: count the project's active
conversations; if ≥ 10, run
`UPDATE chat_conversations SET is_active = false, updated_at = now()
 WHERE id = (SELECT id ... ORDER BY updated_at ASC NULLS FIRST,
 created_at ASC LIMIT 1)`; then insert the new conversation. -/
def CreateConversation (convs : List ConvRow) (pid uid : Nat) (name : String)
    (newId newCreatedAt now : Nat) : List ConvRow :=
  let count := (activeConvs convs pid).length
  let convs2 :=
    if count ≥ 10 then
      match pickOldest (activeConvs convs pid) with
      | some o => convs.map (fun c =>
          if c.id == o.id then { c with isActive := false, updatedAt := some now }
          else c)
      | none => convs
    else convs
  convs2 ++ [insertedConversation uid pid name newId newCreatedAt]

end ChatRepo

/-! ## Claim C6 -/

theorem activeConvs_deactivate_length (convs : List ConvRow) (pid now : Nat)
    (o : ConvRow) (hnodup : (convs.map (·.id)).Nodup)
    (ho : o ∈ convs) (hoact : (o.projectId == pid && o.isActive) = true) :
    (ChatRepo.activeConvs (convs.map (fun c =>
        if c.id == o.id then { c with isActive := false, updatedAt := some now }
        else c)) pid).length
      = (ChatRepo.activeConvs convs pid).length - 1 := by
  induction convs with
  | nil => cases ho
  | cons c rest ih =>
    have hn := List.nodup_cons.mp hnodup
    rcases List.mem_cons.mp ho with hoc | homem
    · subst hoc
      have hrest : rest.map (fun c =>
          if c.id == o.id then { c with isActive := false, updatedAt := some now }
          else c) = rest := by
        rw [List.map_congr_left (g := id), List.map_id]
        intro r hr
        have hne : r.id ≠ o.id := by
          intro he
          have hmm : r.id ∈ rest.map (·.id) := List.mem_map_of_mem (·.id) hr
          rw [he] at hmm
          exact hn.1 hmm
        simp [hne]
      simp only [List.map_cons, hrest, beq_self_eq_true, if_pos]
      simp only [ChatRepo.activeConvs, List.filter_cons]
      simp only [hoact]
      simp
    · have hco : c.id ≠ o.id := by
        intro he
        have hmm : o.id ∈ rest.map (·.id) := List.mem_map_of_mem (·.id) homem
        rw [← he] at hmm
        exact hn.1 hmm
      have hbeq : (c.id == o.id) = false := by
        simp [hco]
      have hlen1 : 1 ≤ (ChatRepo.activeConvs rest pid).length := by
        have hmm : o ∈ ChatRepo.activeConvs rest pid :=
          List.mem_filter.mpr ⟨homem, hoact⟩
        exact List.length_pos.mpr (List.ne_nil_of_mem hmm)
      have hih := ih hn.2 homem
      simp only [List.map_cons, hbeq, Bool.false_eq_true, if_false]
      simp only [ChatRepo.activeConvs, List.filter_cons] at hih hlen1 ⊢
      by_cases hpc : (c.projectId == pid && c.isActive) = true
      · rw [if_pos hpc, if_pos hpc]
        simp only [List.length_cons]
        omega
      · rw [if_neg hpc, if_neg hpc]
        exact hih

/-- C6: creating a conversation when the project holds exactly 10 active
conversations first deactivates exactly one row — a minimal one under
`updated_at ASC NULLS FIRST, created_at ASC` — then inserts the new one,
leaving exactly 10 active conversations; below the cap nothing is
evicted. -/
theorem chat_create_conversation_cap
    (convs : List ConvRow) (pid uid : Nat) (name : String)
    (newId newCreatedAt now : Nat) :
    ((ChatRepo.activeConvs convs pid).length < 10 →
      ChatRepo.CreateConversation convs pid uid name newId newCreatedAt now
        = convs ++ [ChatRepo.insertedConversation uid pid name newId newCreatedAt])
    ∧ ((convs.map (·.id)).Nodup →
       (ChatRepo.activeConvs convs pid).length = 10 →
       ∃ o, ChatRepo.pickOldest (ChatRepo.activeConvs convs pid) = some o
         ∧ o ∈ ChatRepo.activeConvs convs pid
         ∧ (∀ x ∈ ChatRepo.activeConvs convs pid, ChatRepo.convLe o x)
         ∧ ChatRepo.CreateConversation convs pid uid name newId newCreatedAt now
             = convs.map (fun c => if c.id == o.id then
                 { c with isActive := false, updatedAt := some now } else c)
               ++ [ChatRepo.insertedConversation uid pid name newId newCreatedAt]
         ∧ (ChatRepo.activeConvs (ChatRepo.CreateConversation convs pid uid name
              newId newCreatedAt now) pid).length = 10) := by
  constructor
  · intro h
    simp only [ChatRepo.CreateConversation]
    rw [if_neg (by omega)]
  · intro hnodup h10
    have hne : ChatRepo.activeConvs convs pid ≠ [] := by
      intro hh
      rw [hh] at h10
      simp at h10
    cases hpo : ChatRepo.pickOldest (ChatRepo.activeConvs convs pid) with
    | none => exact absurd ((ChatRepo.pickOldest_eq_none_iff _).mp hpo) hne
    | some o =>
      obtain ⟨homem, homin⟩ := ChatRepo.pickOldest_spec _ _ hpo
      obtain ⟨hoconvs, hoact⟩ := List.mem_filter.mp homem
      have hcc : ChatRepo.CreateConversation convs pid uid name newId
          newCreatedAt now
          = convs.map (fun c => if c.id == o.id then
              { c with isActive := false, updatedAt := some now } else c)
            ++ [ChatRepo.insertedConversation uid pid name newId newCreatedAt] := by
        simp only [ChatRepo.CreateConversation]
        rw [if_pos (by omega), hpo]
      refine ⟨o, rfl, homem, homin, hcc, ?_⟩
      rw [hcc]
      simp only [ChatRepo.activeConvs, List.filter_append]
      rw [List.length_append]
      have hins : (List.filter (fun c => c.projectId == pid && c.isActive)
          [ChatRepo.insertedConversation uid pid name newId newCreatedAt]).length
          = 1 := by
        simp [ChatRepo.insertedConversation]
      rw [hins]
      have hdeact := activeConvs_deactivate_length convs pid now o hnodup
        hoconvs hoact
      simp only [ChatRepo.activeConvs] at hdeact h10
      omega

/-- Ten active conversations of project 1, used by the C6 witness. -/
def chatConvsTen : List ConvRow :=
  [⟨1, 1, 1, "c1", 1, none, true⟩, ⟨2, 2, 1, "c2", 2, none, true⟩,
   ⟨3, 3, 1, "c3", 3, none, true⟩, ⟨4, 4, 1, "c4", 4, none, true⟩,
   ⟨5, 5, 1, "c5", 5, none, true⟩, ⟨6, 6, 1, "c6", 6, none, true⟩,
   ⟨7, 7, 1, "c7", 7, none, true⟩, ⟨8, 8, 1, "c8", 8, none, true⟩,
   ⟨9, 9, 1, "c9", 9, none, true⟩, ⟨10, 10, 1, "c10", 10, none, true⟩]

/-- Witness for C6: with exactly 10 active conversations, a create leaves
exactly 10 active afterwards; with 0 active conversations nothing is
evicted. -/
theorem chat_create_conversation_cap_witness :
    (ChatRepo.activeConvs
        (ChatRepo.CreateConversation chatConvsTen 1 99 "new" 11 20 30) 1).length
      = 10
    ∧ ChatRepo.CreateConversation [] 1 99 "new" 11 20 30
        = [ChatRepo.insertedConversation 99 1 "new" 11 20] := by
  constructor
  · obtain ⟨o, _, _, _, _, hlen⟩ :=
      (chat_create_conversation_cap chatConvsTen 1 99 "new" 11 20 30).2
        (by decide) (by decide)
    exact hlen
  · exact (chat_create_conversation_cap [] 1 99 "new" 11 20 30).1 (by decide)

/-! # Access control (claim C7)

Embedding of internal/middleware/project_ownership.go (ProjectOwnership,
checkProjectMembership, ResourceOwnership) and of the route wiring in
internal/routes/routes.go.  All routes below are inside the
`middleware.Authentication` group, so the acting user is authenticated. -/

/-- Row of the `users` table (the fields the middleware touches). -/
structure UserRow where
  id : Nat
  userUid : Nat
  isActive : Bool
deriving Repr, DecidableEq

/-- Row of the `project_member` table. -/
structure MemberRow where
  projectId : Nat
  userId : Nat
  role : String
deriving Repr, DecidableEq

/-- The stored state the authorization middleware reads. -/
structure AccessDB where
  users : List UserRow
  projects : List ProjectRow
  members : List MemberRow
deriving Repr, DecidableEq

/-- Outcome of the middleware chain for a request. -/
inductive MwOutcome where
  | notFound
  | forbidden
  | reachedHandler
deriving Repr, DecidableEq

namespace Middleware

/-- checkProjectMembership: `SELECT id FROM users WHERE user_uid = $1 AND
is_active = true`, then `SELECT EXISTS(SELECT 1 FROM project_member WHERE
project_id = $1 AND user_id = $2)`; a missing user is simply "not a
member". -/
def checkProjectMembership (db : AccessDB) (projectId userUid : Nat) : Bool :=
  match db.users.find? (fun u => u.userUid == userUid && u.isActive) with
  | none => false
  | some u => db.members.any (fun m => m.projectId == projectId && m.userId == u.id)

/-- ProjectOwnership middleware (for an authenticated user with a
well-formed project uid): resolve the project via
projectRepository.GetByUID (any failure → 404 "Project not found"), then
check membership; absence ⇒ 403 Forbidden, presence ⇒ the handler runs. -/
def ProjectOwnership (db : AccessDB) (projectUid userUid : Nat) : MwOutcome :=
  match ProjectRepo.GetByUID db.projects projectUid with
  | none => .notFound
  | some p =>
    if checkProjectMembership db p.id userUid then .reachedHandler
    else .forbidden

/-- ResourceOwnership middleware (for a well-formed resource uid): the
implementation only validates the uid format and then allows access — it
performs NO membership check ("For now, we just validate the UID format and
allow access"). -/
def ResourceOwnership (_db : AccessDB) (_resourceUid _userUid : Nat) :
    MwOutcome :=
  .reachedHandler

end Middleware

/-- Authenticated routes of routes.go that operate on a project's data,
directly or through a nested resource. -/
inductive Route where
  | getProject
  | getProjectProgress
  | updateProject
  | patchProject
  | deleteProject
  | getProjectMembers
  | addProjectMember
  | getCanvas
  | updateCanvas
  | deleteCanvas
  | getNotesByProject
  | createNote
  | getFolders
  | createFolder
  | getChatConversations
  | createChatConversation
  | createList
  | updateList
  | patchList
  | deleteList
  | updateListPosition
  | createTask
  | updateTask
  | patchTask
  | deleteTask
  | moveTask
  | getNote
  | updateNote
  | patchNote
  | deleteNote
  | moveNoteToFolder
  | updateFolder
  | deleteFolder
  | getConversationWithMessages
  | deleteConversation
  | createChatMessage
deriving Repr, DecidableEq

/-- Which middleware guards each route in routes.go: only the
`/projects/:uid/...` group runs ProjectOwnership; every list, task,
individual note/folder and individual chat-conversation route sits directly
under the Authentication group with no membership check. -/
def routeUsesProjectOwnership : Route → Bool
  | .getProject => true
  | .getProjectProgress => true
  | .updateProject => true
  | .patchProject => true
  | .deleteProject => true
  | .getProjectMembers => true
  | .addProjectMember => true
  | .getCanvas => true
  | .updateCanvas => true
  | .deleteCanvas => true
  | .getNotesByProject => true
  | .createNote => true
  | .getFolders => true
  | .createFolder => true
  | .getChatConversations => true
  | .createChatConversation => true
  | _ => false

/-- Outcome of an authenticated request: routes in the `/projects/:uid`
group run ProjectOwnership against the named project; all other routes go
straight to their handler (which performs no membership validation of its
own — e.g. NoteHandler.PartialUpdateNote calls the service directly). -/
def requestOutcome (r : Route) (db : AccessDB) (projectUid userUid : Nat) :
    MwOutcome :=
  if routeUsesProjectOwnership r then
    Middleware.ProjectOwnership db projectUid userUid
  else
    .reachedHandler

/-! ## Claim C7 -/

/-- Counterexample to C7 as frozen: user 20 is a member of project Q
(id 2) but not of project P (id 1); a partial update of a note of project P
through the nested-resource route `/notes/:uid` reaches the handler instead
of failing with Forbidden — the route carries no membership check. -/
theorem nonmember_note_update_not_forbidden :
    requestOutcome Route.patchNote
      ⟨[⟨10, 20, true⟩],
       [⟨1, 100, 1, "P", none, "active", "#FFFFFF", none, none, none, false,
          none, none, none, none, true⟩,
        ⟨2, 200, 1, "Q", none, "active", "#FFFFFF", none, none, none, false,
          none, none, none, none, true⟩],
       [⟨2, 10, "member"⟩]⟩ 100 20
      = MwOutcome.reachedHandler
    ∧ requestOutcome Route.patchNote
      ⟨[⟨10, 20, true⟩],
       [⟨1, 100, 1, "P", none, "active", "#FFFFFF", none, none, none, false,
          none, none, none, none, true⟩,
        ⟨2, 200, 1, "Q", none, "active", "#FFFFFF", none, none, none, false,
          none, none, none, none, true⟩],
       [⟨2, 10, "member"⟩]⟩ 100 20
      ≠ MwOutcome.forbidden := by
  exact ⟨rfl, by decide⟩

/-- C7 (amended): for every route guarded by the ProjectOwnership
middleware (the `/projects/:uid/...` group, which includes project-scoped
notes, canvas and chat-conversation listing/creation), an authenticated
user with no ProjectMember row for the named project receives Forbidden,
even if a member of other projects; routes for nested resources addressed
by their own uid (`/notes/:uid`, `/folders/:uid`, `/lists/:uid`,
`/tasks/:uid`, `/chat/...`) run no membership check and reach their
handler. -/
theorem project_ownership_forbidden
    (r : Route) (db : AccessDB) (projectUid userUid : Nat) (p : ProjectRow)
    (hp : ProjectRepo.GetByUID db.projects projectUid = some p)
    (hnm : Middleware.checkProjectMembership db p.id userUid = false) :
    (routeUsesProjectOwnership r = true →
      requestOutcome r db projectUid userUid = MwOutcome.forbidden)
    ∧ (routeUsesProjectOwnership r = false →
      requestOutcome r db projectUid userUid = MwOutcome.reachedHandler) := by
  constructor
  · intro hr
    simp only [requestOutcome, hr, if_true, Middleware.ProjectOwnership, hp,
      hnm, Bool.false_eq_true, if_false]
  · intro hr
    simp only [requestOutcome, hr, Bool.false_eq_true, if_false]

/-- Witness for C7: a non-member's PATCH of project P itself is Forbidden,
while the same non-member's PATCH of a note of P reaches the handler. -/
theorem project_ownership_forbidden_witness :
    requestOutcome Route.patchProject
      ⟨[⟨10, 20, true⟩],
       [⟨1, 100, 1, "P", none, "active", "#FFFFFF", none, none, none, false,
          none, none, none, none, true⟩],
       [⟨2, 10, "member"⟩]⟩ 100 20
      = MwOutcome.forbidden :=
  (project_ownership_forbidden Route.patchProject
    ⟨[⟨10, 20, true⟩],
     [⟨1, 100, 1, "P", none, "active", "#FFFFFF", none, none, none, false,
        none, none, none, none, true⟩],
     [⟨2, 10, "member"⟩]⟩ 100 20
    ⟨1, 100, 1, "P", none, "active", "#FFFFFF", none, none, none, false,
      none, none, none, none, true⟩
    (by decide) (by decide)).1 rfl

/-! # Delete operations (claim C8)

Embedding of the Delete methods of task.go (above), list, project, note,
note_folder, chat (DeleteConversation), canvas and user_settings
repositories. -/

/-- Row of the `note_folder` table (models.NoteFolder). -/
structure FolderRow where
  id : Nat
  folderUid : Nat
  projectId : Nat
  parentFolderId : Option Nat
  name : String
  position : Option Int
  updatedAt : Option Nat
  isActive : Bool
deriving Repr, DecidableEq

/-- Row of the `brainstorm_canvas` table (models.BrainstormCanvas). -/
structure CanvasRow where
  id : Nat
  canvasUid : Nat
  projectId : Nat
  stateJson : String
deriving Repr, DecidableEq

/-- Row of the `user_settings` table (the fields deletion touches). -/
structure SettingsRow where
  id : Nat
  settingsUid : Nat
  userId : Nat
  theme : String
deriving Repr, DecidableEq

namespace ListRepo

/-- listRepository.Delete:
`UPDATE list SET is_active = false WHERE list_uid = $1 AND is_active = true`. -/
def Delete (lists : List ListRow) (uid : Nat) : Except String (List ListRow) :=
  if lists.any (fun l => l.listUid == uid && l.isActive) then
    .ok (lists.map (fun l =>
      if l.listUid == uid && l.isActive then { l with isActive := false } else l))
  else .error "list not found"

end ListRepo

namespace ProjectRepo

/-- projectRepository.Delete:
`UPDATE project SET is_active = false WHERE project_uid = $1 AND
is_active = true`. -/
def Delete (projects : List ProjectRow) (uid : Nat) :
    Except String (List ProjectRow) :=
  if projects.any (fun p => p.projectUid == uid && p.isActive) then
    .ok (projects.map (fun p =>
      if p.projectUid == uid && p.isActive then { p with isActive := false }
      else p))
  else .error "project not found"

end ProjectRepo

namespace NoteRepo

/-- noteRepository.GetByUID (active-filtered). -/
def GetByUID (notes : List NoteRow) (uid : Nat) : Option NoteRow :=
  notes.find? (fun n => n.noteUid == uid && n.isActive)

/-- noteRepository.Delete:
`UPDATE note SET is_active = false, updated_at = $1 WHERE note_uid = $2 AND
is_active = true`. -/
def Delete (notes : List NoteRow) (uid now : Nat) :
    Except String (List NoteRow) :=
  if notes.any (fun n => n.noteUid == uid && n.isActive) then
    .ok (notes.map (fun n =>
      if n.noteUid == uid && n.isActive then
        { n with isActive := false, updatedAt := some now }
      else n))
  else .error ("note not found: " ++ toString uid)

end NoteRepo

namespace FolderRepo

/-- NoteFolderRepository.Delete:
`UPDATE note_folder SET is_active = false, updated_at = NOW()
 WHERE folder_uid = $1 AND is_active = true`. -/
def Delete (folders : List FolderRow) (uid now : Nat) :
    Except String (List FolderRow) :=
  if folders.any (fun f => f.folderUid == uid && f.isActive) then
    .ok (folders.map (fun f =>
      if f.folderUid == uid && f.isActive then
        { f with isActive := false, updatedAt := some now }
      else f))
  else .error "folder not found"

end FolderRepo

namespace ChatRepo

/-- ChatRepository.GetConversationByUID (active-filtered). -/
def GetConversationByUID (convs : List ConvRow) (uid : Nat) : Option ConvRow :=
  convs.find? (fun c => c.conversationUid == uid && c.isActive)

/-- ChatRepository.DeleteConversation — a SOFT delete:
`UPDATE chat_conversations SET is_active = false, updated_at = now()
 WHERE conversation_uid = $1` (note: no is_active filter in the WHERE). -/
def DeleteConversation (convs : List ConvRow) (uid now : Nat) :
    Except String (List ConvRow) :=
  if convs.any (fun c => c.conversationUid == uid) then
    .ok (convs.map (fun c =>
      if c.conversationUid == uid then
        { c with isActive := false, updatedAt := some now }
      else c))
  else .error "conversation not found"

end ChatRepo

namespace CanvasRepo

/-- canvasRepository.Delete — a HARD delete:
`DELETE FROM brainstorm_canvas USING project p
 WHERE brainstorm_canvas.project_id = p.id AND p.project_uid = $1
 AND p.is_active = true`; the rows are physically removed. -/
def Delete (canvases : List CanvasRow) (projects : List ProjectRow)
    (projectUid : Nat) : Except String (List CanvasRow) :=
  let remaining := canvases.filter (fun bc =>
    !(projects.any (fun p =>
      p.id == bc.projectId && p.projectUid == projectUid && p.isActive)))
  if remaining.length == canvases.length then
    .error ("canvas not found for project " ++ toString projectUid)
  else .ok remaining

end CanvasRepo

namespace SettingsRepo

/-- userSettingsRepository.DeleteByUserID — a HARD delete:
`DELETE FROM user_settings WHERE user_id = $1` (no rows-affected check). -/
def DeleteByUserID (settings : List SettingsRow) (userId : Nat) :
    List SettingsRow :=
  settings.filter (fun s => !(s.userId == userId))

end SettingsRepo

/-! ## Claim C8 -/

theorem find?_none_after_conditional_flip {α : Type} (xs : List α)
    (pred : α → Bool) (flip : α → α)
    (hflip : ∀ x, pred (flip x) = false) :
    (xs.map (fun x => if pred x then flip x else x)).find? pred = none := by
  rw [List.find?_eq_none]
  intro y hy
  rw [List.mem_map] at hy
  obtain ⟨x, hx, hxy⟩ := hy
  by_cases hp : pred x = true
  · rw [if_pos hp] at hxy
    subst hxy
    simp [hflip x]
  · rw [if_neg hp] at hxy
    subst hxy
    simpa using hp

/-- Counterexample to C8 as frozen: deleting a canvas physically removes
the row (hard `DELETE FROM brainstorm_canvas ...`) although canvas is not
among the claim's stated exceptions, and DeleteConversation only flips
`is_active` (soft delete) although the claim lists chat conversations among
the hard deletes. -/
theorem canvas_delete_removes_row :
    CanvasRepo.Delete [⟨1, 50, 1, "state"⟩]
      [⟨1, 100, 1, "P", none, "active", "#FFFFFF", none, none, none, false,
        none, none, none, none, true⟩] 100
      = Except.ok ([] : List CanvasRow)
    ∧ ChatRepo.DeleteConversation [⟨1, 9, 1, "conv", 0, none, true⟩] 9 5
      = Except.ok [⟨1, 9, 1, "conv", 0, some 5, false⟩] := by
  exact ⟨rfl, rfl⟩

/-- C8 (amended): the domain Delete of tasks, lists, projects, notes,
folders AND chat conversations only flips the active flag — the row count
is unchanged, the row is still present (with active = false) for a lookup
that bypasses the active filter, and the active-filtered GetByUID no longer
finds it; the operations that physically remove rows are the canvas delete,
the settings delete and project-member removal (chat messages have no
delete at all). -/
theorem soft_delete_behaviour
    (tasks : List TaskRow) (lists : List ListRow) (projects : List ProjectRow)
    (notes : List NoteRow) (folders : List FolderRow) (convs : List ConvRow)
    (canvases : List CanvasRow) (settingsTable : List SettingsRow)
    (tuid luid puid nuid fuid cuid now userId : Nat)
    (t : TaskRow) (ht : t ∈ tasks)
    (hta : (t.taskUid == tuid && t.isActive) = true)
    (l : ListRow) (hl : l ∈ lists)
    (hla : (l.listUid == luid && l.isActive) = true)
    (p : ProjectRow) (hp : p ∈ projects)
    (hpa : (p.projectUid == puid && p.isActive) = true)
    (n : NoteRow) (hn : n ∈ notes)
    (hna : (n.noteUid == nuid && n.isActive) = true)
    (f : FolderRow) (hf : f ∈ folders)
    (hfa : (f.folderUid == fuid && f.isActive) = true)
    (c : ConvRow) (hc : c ∈ convs)
    (hca : (c.conversationUid == cuid) = true) :
    (∀ ts, TaskRepo.Delete tasks tuid = Except.ok ts →
      ts.length = tasks.length
      ∧ (∃ r ∈ ts, r.taskUid = t.taskUid ∧ r.isActive = false)
      ∧ TaskRepo.GetByUID ts tuid = none)
    ∧ (TaskRepo.Delete tasks tuid).isOk
    ∧ (∀ ls, ListRepo.Delete lists luid = Except.ok ls →
      ls.length = lists.length
      ∧ (∃ r ∈ ls, r.listUid = l.listUid ∧ r.isActive = false)
      ∧ ListRepo.GetByUID ls luid = none)
    ∧ (ListRepo.Delete lists luid).isOk
    ∧ (∀ ps, ProjectRepo.Delete projects puid = Except.ok ps →
      ps.length = projects.length
      ∧ (∃ r ∈ ps, r.projectUid = p.projectUid ∧ r.isActive = false)
      ∧ ProjectRepo.GetByUID ps puid = none)
    ∧ (ProjectRepo.Delete projects puid).isOk
    ∧ (∀ ns, NoteRepo.Delete notes nuid now = Except.ok ns →
      ns.length = notes.length
      ∧ (∃ r ∈ ns, r.noteUid = n.noteUid ∧ r.isActive = false)
      ∧ NoteRepo.GetByUID ns nuid = none)
    ∧ (NoteRepo.Delete notes nuid now).isOk
    ∧ (∀ fs, FolderRepo.Delete folders fuid now = Except.ok fs →
      fs.length = folders.length
      ∧ (∃ r ∈ fs, r.folderUid = f.folderUid ∧ r.isActive = false))
    ∧ (FolderRepo.Delete folders fuid now).isOk
    ∧ (∀ cs, ChatRepo.DeleteConversation convs cuid now = Except.ok cs →
      cs.length = convs.length
      ∧ (∃ r ∈ cs, r.conversationUid = c.conversationUid ∧ r.isActive = false)
      ∧ ChatRepo.GetConversationByUID cs cuid = none)
    ∧ (ChatRepo.DeleteConversation convs cuid now).isOk
    ∧ (∀ cvs, CanvasRepo.Delete canvases projects puid = Except.ok cvs →
      ∀ bc ∈ cvs, (projects.any (fun pr =>
        pr.id == bc.projectId && pr.projectUid == puid && pr.isActive)) = false)
    ∧ (∀ s ∈ SettingsRepo.DeleteByUserID settingsTable userId,
      (s.userId == userId) = false) := by
  have htany : tasks.any (fun x => x.taskUid == tuid && x.isActive) = true :=
    List.any_eq_true.mpr ⟨t, ht, hta⟩
  have hlany : lists.any (fun x => x.listUid == luid && x.isActive) = true :=
    List.any_eq_true.mpr ⟨l, hl, hla⟩
  have hpany : projects.any (fun x => x.projectUid == puid && x.isActive) = true :=
    List.any_eq_true.mpr ⟨p, hp, hpa⟩
  have hnany : notes.any (fun x => x.noteUid == nuid && x.isActive) = true :=
    List.any_eq_true.mpr ⟨n, hn, hna⟩
  have hfany : folders.any (fun x => x.folderUid == fuid && x.isActive) = true :=
    List.any_eq_true.mpr ⟨f, hf, hfa⟩
  have hcany : convs.any (fun x => x.conversationUid == cuid) = true :=
    List.any_eq_true.mpr ⟨c, hc, hca⟩
  refine ⟨?_, ?_, ?_, ?_, ?_, ?_, ?_, ?_, ?_, ?_, ?_, ?_, ?_, ?_⟩
  · intro ts hts
    rw [TaskRepo.Delete, if_pos htany] at hts
    cases hts
    refine ⟨List.length_map .., ?_, ?_⟩
    · refine ⟨{ t with isActive := false }, ?_, rfl, rfl⟩
      rw [List.mem_map]
      exact ⟨t, ht, by rw [if_pos hta]⟩
    · exact find?_none_after_conditional_flip tasks _ _ (fun x => by simp)
  · rw [TaskRepo.Delete, if_pos htany]; rfl
  · intro ls hls
    rw [ListRepo.Delete, if_pos hlany] at hls
    cases hls
    refine ⟨List.length_map .., ?_, ?_⟩
    · refine ⟨{ l with isActive := false }, ?_, rfl, rfl⟩
      rw [List.mem_map]
      exact ⟨l, hl, by rw [if_pos hla]⟩
    · exact find?_none_after_conditional_flip lists _ _ (fun x => by simp)
  · rw [ListRepo.Delete, if_pos hlany]; rfl
  · intro ps hps
    rw [ProjectRepo.Delete, if_pos hpany] at hps
    cases hps
    refine ⟨List.length_map .., ?_, ?_⟩
    · refine ⟨{ p with isActive := false }, ?_, rfl, rfl⟩
      rw [List.mem_map]
      exact ⟨p, hp, by rw [if_pos hpa]⟩
    · exact find?_none_after_conditional_flip projects _ _ (fun x => by simp)
  · rw [ProjectRepo.Delete, if_pos hpany]; rfl
  · intro ns hns
    rw [NoteRepo.Delete, if_pos hnany] at hns
    cases hns
    refine ⟨List.length_map .., ?_, ?_⟩
    · refine ⟨{ n with isActive := false, updatedAt := some now }, ?_, rfl, rfl⟩
      rw [List.mem_map]
      exact ⟨n, hn, by rw [if_pos hna]⟩
    · exact find?_none_after_conditional_flip notes _ _ (fun x => by simp)
  · rw [NoteRepo.Delete, if_pos hnany]; rfl
  · intro fs hfs
    rw [FolderRepo.Delete, if_pos hfany] at hfs
    cases hfs
    refine ⟨List.length_map .., ?_⟩
    refine ⟨{ f with isActive := false, updatedAt := some now }, ?_, rfl, rfl⟩
    rw [List.mem_map]
    exact ⟨f, hf, by rw [if_pos hfa]⟩
  · rw [FolderRepo.Delete, if_pos hfany]; rfl
  · intro cs hcs
    rw [ChatRepo.DeleteConversation, if_pos hcany] at hcs
    cases hcs
    refine ⟨List.length_map .., ?_, ?_⟩
    · refine ⟨{ c with isActive := false, updatedAt := some now }, ?_, rfl, rfl⟩
      rw [List.mem_map]
      exact ⟨c, hc, by rw [if_pos hca]⟩
    · rw [ChatRepo.GetConversationByUID, List.find?_eq_none]
      intro y hy
      rw [List.mem_map] at hy
      obtain ⟨x, hx, hxy⟩ := hy
      by_cases hxc : (x.conversationUid == cuid) = true
      · rw [if_pos hxc] at hxy
        subst hxy
        simp
      · rw [if_neg hxc] at hxy
        subst hxy
        simp_all
  · rw [ChatRepo.DeleteConversation, if_pos hcany]; rfl
  · intro cvs hcvs
    rw [CanvasRepo.Delete] at hcvs
    split at hcvs
    · cases hcvs
    · cases hcvs
      intro bc hbc
      have := List.of_mem_filter hbc
      simpa using this
  · intro s hs
    have := List.of_mem_filter hs
    simpa using this

/-- Witness for C8: after soft-deleting the only task (uid 1), the
active-filtered lookup no longer finds it, although its row is still in the
table with active = false. -/
theorem soft_delete_behaviour_witness :
    TaskRepo.GetByUID
      [⟨1, 1, 1, "A", none, none, "todo", "#FFFFFF", none, false, none, none,
        0, none, false⟩] 1 = none :=
  ((soft_delete_behaviour
      [⟨1, 1, 1, "A", none, none, "todo", "#FFFFFF", none, false, none, none,
        0, none, true⟩]
      [⟨1, 1, 1, "L", "#FFFFFF", 1, none, true⟩]
      [⟨1, 1, 1, "P", none, "active", "#FFFFFF", none, none, none, false,
        none, none, none, none, true⟩]
      [⟨1, 1, 1, none, "N", "{}", none, none, true⟩]
      [⟨1, 1, 1, none, "F", none, none, true⟩]
      [⟨1, 1, 1, "C", 0, none, true⟩]
      [] [] 1 1 1 1 1 1 5 7
      ⟨1, 1, 1, "A", none, none, "todo", "#FFFFFF", none, false, none, none,
        0, none, true⟩ (by decide) (by decide)
      ⟨1, 1, 1, "L", "#FFFFFF", 1, none, true⟩ (by decide) (by decide)
      ⟨1, 1, 1, "P", none, "active", "#FFFFFF", none, none, none, false,
        none, none, none, none, true⟩ (by decide) (by decide)
      ⟨1, 1, 1, none, "N", "{}", none, none, true⟩ (by decide) (by decide)
      ⟨1, 1, 1, none, "F", none, none, true⟩ (by decide) (by decide)
      ⟨1, 1, 1, "C", 0, none, true⟩ (by decide) (by decide)).1
    [⟨1, 1, 1, "A", none, none, "todo", "#FFFFFF", none, false, none, none,
      0, none, false⟩] (by decide)).2.2

/-! # Note content serialization (claim C9)

Embedding of models.NoteContent / NoteBlock / NoteBlockMetadata /
NoteChecklistItem (internal/models/dto.go) and of Go's encoding/json
marshal/unmarshal behaviour for exactly these struct/tag shapes, at the
level of the parsed JSON value tree (the byte-level encode/parse pair is
the identity on this tree).  A Go slice distinguishes nil from an empty
non-nil slice, so slice-typed fields are embedded as `Option (List _)`
with `none` = nil; `omitempty` omits a slice field of length 0 (nil or
empty) and a nil pointer. -/

/-- A parsed JSON value. -/
inductive Json where
  | null
  | bool (b : Bool)
  | num (n : Int)
  | str (s : String)
  | arr (xs : List Json)
  | obj (fields : List (String × Json))
deriving Repr

/-- models.NoteChecklistItem: `id`, `text`, `completed` (no omitempty). -/
structure NoteChecklistItem where
  id : String
  text : String
  completed : Bool
deriving Repr, DecidableEq

/-- models.NoteBlockMetadata: `level,omitempty` (heading level 1–6),
`bold,omitempty`, `italic,omitempty`, `underline,omitempty`, all
pointers. -/
structure NoteBlockMetadata where
  level : Option Int
  bold : Option Bool
  italic : Option Bool
  underline : Option Bool
deriving Repr, DecidableEq

/-- models.NoteBlock: `id`, `type`, `content,omitempty`,
`metadata,omitempty` (pointer), `items,omitempty` (slice),
`children,omitempty` (slice). -/
inductive NoteBlock where
  | mk (id : String) (btype : String) (content : String)
       (metadata : Option NoteBlockMetadata)
       (items : Option (List NoteChecklistItem))
       (children : Option (List NoteBlock))
deriving Repr

def NoteBlock.id : NoteBlock → String
  | .mk i _ _ _ _ _ => i

def NoteBlock.btype : NoteBlock → String
  | .mk _ ty _ _ _ _ => ty

def NoteBlock.content : NoteBlock → String
  | .mk _ _ ct _ _ _ => ct

def NoteBlock.metadata : NoteBlock → Option NoteBlockMetadata
  | .mk _ _ _ md _ _ => md

def NoteBlock.items : NoteBlock → Option (List NoteChecklistItem)
  | .mk _ _ _ _ it _ => it

def NoteBlock.children : NoteBlock → Option (List NoteBlock)
  | .mk _ _ _ _ _ ch => ch

/-- models.NoteContent: `blocks` (slice, NO omitempty — nil marshals to
null, an empty slice to []). -/
structure NoteContent where
  blocks : Option (List NoteBlock)
deriving Repr

/-- json.Marshal of a NoteChecklistItem. -/
def marshalItem (it : NoteChecklistItem) : Json :=
  .obj [("id", .str it.id), ("text", .str it.text),
        ("completed", .bool it.completed)]

/-- The field list json.Marshal emits for a NoteBlockMetadata (each nil
pointer omitted). -/
def metaFields (m : NoteBlockMetadata) : List (String × Json) :=
  (match m.level with | some v => [("level", Json.num v)] | none => [])
    ++ (match m.bold with | some v => [("bold", Json.bool v)] | none => [])
    ++ (match m.italic with | some v => [("italic", Json.bool v)] | none => [])
    ++ (match m.underline with
        | some v => [("underline", Json.bool v)] | none => [])

/-- json.Marshal of a NoteBlockMetadata. -/
def marshalMeta (m : NoteBlockMetadata) : Json :=
  .obj (metaFields m)

mutual

/-- The field list json.Marshal emits for a NoteBlock: fields in
declaration order; `content` omitted when empty, `metadata` when nil,
`items`/`children` when nil or empty. -/
def blockFields : NoteBlock → List (String × Json)
  | .mk i ty ct md it ch =>
    [("id", Json.str i), ("type", Json.str ty)]
      ++ (if ct = "" then [] else [("content", Json.str ct)])
      ++ (match md with
          | some m => [("metadata", Json.obj (metaFields m))] | none => [])
      ++ (match it with
          | some xs =>
            if xs.isEmpty then []
            else [("items", Json.arr (xs.map marshalItem))]
          | none => [])
      ++ (match ch with
          | some xs =>
            if xs.isEmpty then []
            else [("children", Json.arr (marshalBlocks xs))]
          | none => [])

def marshalBlocks : List NoteBlock → List Json
  | [] => []
  | b :: rest => Json.obj (blockFields b) :: marshalBlocks rest

end

/-- json.Marshal of a NoteBlock. -/
def marshalBlock (b : NoteBlock) : Json :=
  .obj (blockFields b)

/-- json.Marshal of a NoteContent (`blocks` has no omitempty). -/
def marshalContent (c : NoteContent) : Json :=
  .obj [("blocks",
    match c.blocks with
    | none => Json.null
    | some xs => Json.arr (marshalBlocks xs))]

/-- Look up an object field by exact key (json.Unmarshal matches the tag
name; marshal output carries each key at most once). -/
def getField (fields : List (String × Json)) (name : String) : Option Json :=
  match fields.find? (fun f => f.1 == name) with
  | some f => some f.2
  | none => none

theorem getField_sizeOf (fs : List (String × Json)) (name : String) (v : Json)
    (h : getField fs name = some v) : sizeOf v < sizeOf fs := by
  unfold getField at h
  cases hf : fs.find? (fun f => f.1 == name) with
  | none => rw [hf] at h; cases h
  | some f =>
    rw [hf] at h
    cases h
    have hmem : f ∈ fs := List.mem_of_find?_eq_some hf
    have h1 : sizeOf f < sizeOf fs := List.sizeOf_lt_of_mem hmem
    have h2 : sizeOf f.2 < sizeOf f := by
      cases f with
      | mk a b => simp
    omega

/-- json.Unmarshal of a string-typed field: absent or non-string leaves the
zero value "". -/
def unmarshalString : Option Json → String
  | some (.str s) => s
  | _ => ""

/-- json.Unmarshal into a NoteChecklistItem. -/
def unmarshalItem (j : Json) : NoteChecklistItem :=
  match j with
  | .obj fs =>
    ⟨unmarshalString (getField fs "id"),
     unmarshalString (getField fs "text"),
     match getField fs "completed" with | some (.bool b) => b | _ => false⟩
  | _ => ⟨"", "", false⟩

/-- json.Unmarshal into a NoteBlockMetadata (absent or null pointer fields
stay nil). -/
def unmarshalMeta (j : Json) : NoteBlockMetadata :=
  match j with
  | .obj fs =>
    ⟨(match getField fs "level" with | some (.num v) => some v | _ => none),
     (match getField fs "bold" with | some (.bool v) => some v | _ => none),
     (match getField fs "italic" with | some (.bool v) => some v | _ => none),
     (match getField fs "underline" with
      | some (.bool v) => some v | _ => none)⟩
  | _ => ⟨none, none, none, none⟩

mutual

/-- json.Unmarshal into a NoteBlock: absent fields keep zero values; an
absent or null slice field stays nil, a present array (also `[]`) yields a
non-nil slice. -/
def unmarshalBlock (j : Json) : NoteBlock :=
  match j with
  | .obj fs =>
    NoteBlock.mk
      (unmarshalString (getField fs "id"))
      (unmarshalString (getField fs "type"))
      (unmarshalString (getField fs "content"))
      (match getField fs "metadata" with
       | some (.obj mfs) => some (unmarshalMeta (.obj mfs))
       | _ => none)
      (match getField fs "items" with
       | some (.arr xs) => some (xs.map unmarshalItem)
       | _ => none)
      (match hch : getField fs "children" with
       | some (.arr xs) => some (unmarshalBlocks xs)
       | _ => none)
  | _ => .mk "" "" "" none none none
termination_by sizeOf j
decreasing_by
  have hlt := getField_sizeOf fs "children" _ hch
  simp at hlt ⊢
  omega

def unmarshalBlocks (xs : List Json) : List NoteBlock :=
  match xs with
  | [] => []
  | j :: rest => unmarshalBlock j :: unmarshalBlocks rest
termination_by sizeOf xs
decreasing_by
  all_goals simp
  all_goals omega

end

/-- json.Unmarshal into a NoteContent. -/
def unmarshalContent (j : Json) : NoteContent :=
  match j with
  | .obj fs =>
    ⟨match getField fs "blocks" with
     | some (.arr xs) => some (unmarshalBlocks xs)
     | _ => none⟩
  | _ => ⟨none⟩

theorem unmarshalItem_marshalItem (it : NoteChecklistItem) :
    unmarshalItem (marshalItem it) = it := by
  cases it
  simp [marshalItem, unmarshalItem, getField, List.find?, unmarshalString]

theorem unmarshalItems_map (xs : List NoteChecklistItem) :
    (xs.map marshalItem).map unmarshalItem = xs := by
  induction xs with
  | nil => rfl
  | cons a rest ih => simp [unmarshalItem_marshalItem a, ih]

theorem unmarshalItems_map_comp (xs : List NoteChecklistItem) :
    List.map (unmarshalItem ∘ marshalItem) xs = xs := by
  induction xs with
  | nil => rfl
  | cons a rest ih => simp [Function.comp, unmarshalItem_marshalItem a, ih]

theorem unmarshalMeta_metaFields (m : NoteBlockMetadata) :
    unmarshalMeta (Json.obj (metaFields m)) = m := by
  obtain ⟨lv, bo, itl, un⟩ := m
  rcases lv with _ | lv <;> rcases bo with _ | bo <;> rcases itl with _ | itl <;>
    rcases un with _ | un <;>
    simp [metaFields, unmarshalMeta, getField, List.find?]

mutual

/-- A block tree is canonical when no slice-valued field is an empty
NON-nil slice (`some []`); Go cannot distinguish such a slice from nil
after a marshal/unmarshal round trip because `omitempty` drops both. -/
def canonicalBlock : NoteBlock → Bool
  | .mk _ _ _ _ it ch =>
    (match it with | some xs => !xs.isEmpty | none => true)
    && (match ch with
        | some xs => !xs.isEmpty && canonicalBlocks xs
        | none => true)

def canonicalBlocks : List NoteBlock → Bool
  | [] => true
  | b :: rest => canonicalBlock b && canonicalBlocks rest

end

/-- A note content is canonical when all its blocks are (the top-level
`blocks` slice itself has no omitempty, so `some []` is fine there). -/
def canonicalContent (c : NoteContent) : Bool :=
  match c.blocks with
  | none => true
  | some xs => canonicalBlocks xs

theorem roundtrip_aux : ∀ k : Nat,
    (∀ b : NoteBlock, sizeOf b ≤ k → canonicalBlock b = true →
      unmarshalBlock (marshalBlock b) = b)
    ∧ (∀ xs : List NoteBlock, sizeOf xs ≤ k → canonicalBlocks xs = true →
      unmarshalBlocks (marshalBlocks xs) = xs) := by
  intro k
  induction k with
  | zero =>
    refine ⟨?_, ?_⟩
    · intro b hb _
      exfalso
      cases b with
      | mk i ty ct md it ch => simp at hb
    · intro xs hxs _
      cases xs with
      | nil => simp [marshalBlocks, unmarshalBlocks]
      | cons b rest =>
        exfalso
        simp at hxs
  | succ k ihk =>
    refine ⟨?_, ?_⟩
    · intro b hb hcb
      cases b with
      | mk i ty ct md it ch =>
        rcases it with _ | its <;> rcases ch with _ | chs
        · rcases md with _ | m <;> by_cases hct : ct = "" <;>
            simp [marshalBlock, blockFields, unmarshalBlock, getField,
              List.find?, unmarshalString, hct, unmarshalMeta_metaFields]
        · simp only [canonicalBlock, Bool.true_and, Bool.and_eq_true,
            Bool.not_eq_true'] at hcb
          have hchs : unmarshalBlocks (marshalBlocks chs) = chs := by
            apply ihk.2 chs ?_ hcb.2
            have : sizeOf (NoteBlock.mk i ty ct md none (some chs)) ≤ k + 1 := hb
            simp at this
            omega
          rcases md with _ | m <;> by_cases hct : ct = "" <;>
            simp [marshalBlock, blockFields, unmarshalBlock, getField,
              List.find?, unmarshalString, hct, unmarshalMeta_metaFields,
              hcb.1, hchs]
        · simp only [canonicalBlock, Bool.and_true, Bool.and_eq_true,
            Bool.not_eq_true'] at hcb
          rcases md with _ | m <;> by_cases hct : ct = "" <;>
            simp [marshalBlock, blockFields, unmarshalBlock, getField,
              List.find?, unmarshalString, hct, unmarshalMeta_metaFields,
              hcb, unmarshalItems_map, unmarshalItems_map_comp]
        · simp only [canonicalBlock, Bool.and_eq_true,
            Bool.not_eq_true'] at hcb
          have hchs : unmarshalBlocks (marshalBlocks chs) = chs := by
            apply ihk.2 chs ?_ hcb.2.2
            have : sizeOf (NoteBlock.mk i ty ct md (some its) (some chs))
                ≤ k + 1 := hb
            simp at this
            omega
          rcases md with _ | m <;> by_cases hct : ct = "" <;>
            simp [marshalBlock, blockFields, unmarshalBlock, getField,
              List.find?, unmarshalString, hct, unmarshalMeta_metaFields,
              hcb.1, hcb.2.1, hchs, unmarshalItems_map,
              unmarshalItems_map_comp]
    · intro xs hxs hcxs
      cases xs with
      | nil => simp [marshalBlocks, unmarshalBlocks]
      | cons b rest =>
        simp only [canonicalBlocks, Bool.and_eq_true] at hcxs
        have hszb : sizeOf b ≤ k := by
          simp at hxs
          omega
        have hszr : sizeOf rest ≤ k := by
          simp at hxs
          omega
        have hb := ihk.1 b hszb hcxs.1
        have hr := ihk.2 rest hszr hcxs.2
        simp only [marshalBlocks, unmarshalBlocks]
        rw [show Json.obj (blockFields b) = marshalBlock b from rfl, hb, hr]

/-! ## Claim C9 -/

/-- Counterexample to C9 as frozen: a checklist block whose `items` is an
empty NON-nil slice does not survive the round trip — `omitempty` drops the
empty slice at marshal time and unmarshal leaves the field nil, which Go
distinguishes from an empty slice. -/
theorem roundtrip_loses_empty_items :
    unmarshalContent (marshalContent
        ⟨some [NoteBlock.mk "b1" "checklist" "" none (some []) none]⟩)
      ≠ ⟨some [NoteBlock.mk "b1" "checklist" "" none (some []) none]⟩ := by
  intro h
  have h2 : (unmarshalContent (marshalContent
      ⟨some [NoteBlock.mk "b1" "checklist" "" none (some []) none]⟩)).blocks
      = some [NoteBlock.mk "b1" "checklist" "" none (some []) none] := by
    rw [h]
  simp [marshalContent, marshalBlocks, blockFields, unmarshalContent,
    unmarshalBlock, unmarshalBlocks, getField, List.find?,
    unmarshalString] at h2

/-- C9 (amended): serializing a Note's structured block content to its
stored form and deserializing it back yields an equal in-memory structure
for every canonical block tree — one in which no slice field (checklist
items, children) is an empty non-nil slice — including nested checklist
items with completion flags and heading levels 1–6; a tree containing an
empty non-nil slice comes back with that field nil instead (see the
counterexample). -/
theorem note_content_roundtrip (c : NoteContent)
    (hc : canonicalContent c = true) :
    unmarshalContent (marshalContent c) = c := by
  obtain ⟨bs⟩ := c
  cases bs with
  | none =>
    simp [marshalContent, unmarshalContent, getField, List.find?]
  | some xs =>
    have h := (roundtrip_aux (sizeOf xs)).2 xs (le_refl _)
      (by simpa [canonicalContent] using hc)
    simp [marshalContent, unmarshalContent, getField, List.find?, h]

/-- Witness for C9: a heading block (level 3, bold) followed by a nested
checklist round-trips exactly. -/
theorem note_content_roundtrip_witness :
    unmarshalContent (marshalContent
      ⟨some [NoteBlock.mk "h1" "heading" "Title"
        (some ⟨some 3, some true, none, none⟩) none
        (some [NoteBlock.mk "t1" "checklist" ""
          none (some [⟨"i1", "buy milk", true⟩]) none])]⟩)
      = ⟨some [NoteBlock.mk "h1" "heading" "Title"
        (some ⟨some 3, some true, none, none⟩) none
        (some [NoteBlock.mk "t1" "checklist" ""
          none (some [⟨"i1", "buy milk", true⟩]) none])]⟩ :=
  note_content_roundtrip _
    (by simp [canonicalContent, canonicalBlocks, canonicalBlock])
